import Mathlib

/-!
Verification development for the Super Bomberman 6 simulation core.

The TypeScript sources are shallowly embedded:
* the client engine (`src/client/src/game/engine/GameEngine.ts`) as pure
  functions over an explicit `EngineState`;
* the boss state machine (`src/client/src/game/entities/bosses/BossSystem.ts`)
  as pure functions on a `Boss` record;
* the multiplayer server (`src/server/multiplayer.ts`) as pure functions on a
  `GameRoom` record (the socket/room-lookup plumbing is resolved outside).

JavaScript numbers are modelled as `Int`/`Nat` where the source only ever
holds integers, and as `ℚ` where fractional values occur (all fractional
constants in the source are small dyadic rationals, on which JS float
arithmetic is exact).  `Math.random()` draws are reified as explicit oracle
parameters, `setTimeout`-scheduled chain detonations as an explicit pending
list, and the fresh-id generator `generateId` as a counter threaded through
the state.
-/

namespace SB6

/-- Discrete grid coordinates (`GridPosition` in `types.ts`). -/

structure GridPos where
  col : Int
  row : Int
  deriving DecidableEq, Repr

/-- Tile type codes, `TILE_TYPES` in `constants.ts`. -/

def TILE_EMPTY : Nat := 0

/-- `TILE_TYPES.WALL`. -/

def TILE_WALL : Nat := 1

/-- `TILE_TYPES.BLOCK`. -/

def TILE_BLOCK : Nat := 2

/-- `TILE_TYPES.SPAWN`. -/

def TILE_SPAWN : Nat := 3

/-- `TILE_TYPES.EXIT`. -/

def TILE_EXIT : Nat := 4

/-- One grid tile (`Tile` in `types.ts`). -/

structure Tile where
  type : Nat
  position : GridPos
  destructible : Bool
  hasPowerUp : Bool
  deriving DecidableEq, Repr

/-- `GameEngine.initGrid`: border cells and even (row, col) intersections are
walls, everything else empty. -/

def initGrid (width height : Nat) : List (List Tile) :=
  (List.range height).map (fun row =>
    (List.range width).map (fun col =>
      let isWall : Bool :=
        decide (row = 0) || decide (row = height - 1) ||
        decide (col = 0) || decide (col = width - 1) ||
        (decide (row % 2 = 0) && decide (col % 2 = 0))
      { type := if isWall then TILE_WALL else TILE_EMPTY
        position := ⟨(col : Int), (row : Int)⟩
        destructible := false
        hasPowerUp := false }))

/-- Server `generateGrid` from `multiplayer.ts`.  `rnd y x` models the
`Math.random() < 0.7` draw performed at cell `(x, y)`. -/

def generateGrid (width height : Nat) (rnd : Nat → Nat → Bool) : List (List Nat) :=
  (List.range height).map (fun y =>
    (List.range width).map (fun x =>
      if x = 0 ∨ x = width - 1 ∨ y = 0 ∨ y = height - 1 then 1
      else if x % 2 = 0 ∧ y % 2 = 0 then 1
      else if (x ≤ 2 ∧ y ≤ 2) ∨ (x ≥ width - 3 ∧ y ≤ 2) ∨
              (x ≤ 2 ∧ y ≥ height - 3) ∨ (x ≥ width - 3 ∧ y ≥ height - 3) then 0
      else if rnd y x then 2
      else 0))

/-- The four corner 3×3 spawn regions, as delimited by the safe-spawn-zone
test in the server's `generateGrid`. -/

def cornerRegion (width height x y : Nat) : Prop :=
  (x ≤ 2 ∧ y ≤ 2) ∨ (x ≥ width - 3 ∧ y ≤ 2) ∨
  (x ≤ 2 ∧ y ≥ height - 3) ∨ (x ≥ width - 3 ∧ y ≥ height - 3)

instance (width height x y : Nat) : Decidable (cornerRegion width height x y) := by
  unfold cornerRegion; infer_instance

/-- Type of the client-grid cell at row `y`, column `x`, if present. -/

def tileTypeAt (g : List (List Tile)) (y x : Nat) : Option Nat :=
  (g[y]?.bind (fun r => r[x]?)).map (fun t => t.type)

/-- Value of the server-grid cell at row `y`, column `x`, if present. -/

def cellAt (g : List (List Nat)) (y x : Nat) : Option Nat :=
  g[y]?.bind (fun r => r[x]?)




/-! ## Client engine data model (`types.ts`, `constants.ts`) -/

/-- Continuous pixel position (`Position` in `types.ts`). -/

structure Pos where
  x : ℚ
  y : ℚ
  deriving DecidableEq, Repr

/-- Axis-aligned bounding box (`Bounds` in `types.ts`). -/

structure Bounds where
  x : ℚ
  y : ℚ
  width : ℚ
  height : ℚ
  deriving DecidableEq, Repr

/-- `BOMB_TYPES` in `constants.ts`. -/

inductive BombType
  | normal
  | penetrating
  | remote
  | line
  deriving DecidableEq, Repr

/-- `POWERUP_TYPES` in `constants.ts`. -/

inductive PowerUpType
  | speed
  | bombCount
  | fireRange
  | powerBomb
  | remoteBomb
  | lineBomb
  deriving DecidableEq, Repr

/-- Facing direction of a player. -/

inductive Dir4
  | up
  | down
  | left
  | right
  deriving DecidableEq, Repr

/-- Direction tag of an explosion tile (center or one of four arms). -/

inductive Dir5
  | center
  | up
  | down
  | left
  | right
  deriving DecidableEq, Repr

/-- Enemy kinds (`ENEMY_TYPES` in `constants.ts`). -/

inductive EnemyType
  | slime
  | bat
  | ghost
  | bomber
  | charger
  | teleporter
  | shield
  | splitter
  deriving DecidableEq, Repr

/-- Enemy behaviour state (`Enemy.state` in `types.ts`). -/

inductive EnemyState
  | idle
  | moving
  | attacking
  | stunned
  | dying
  deriving DecidableEq, Repr

/-- Boss state machine states (`Boss.state` in `types.ts`). -/

inductive BossState
  | intro
  | idle
  | attacking
  | vulnerable
  | transition
  | dying
  | defeated
  deriving DecidableEq, Repr

/-- Game state machine (`GAME_STATES` in `constants.ts`). -/

inductive GState
  | menu
  | playing
  | paused
  | cutscene
  | gameOver
  | victory
  | loading
  deriving DecidableEq, Repr

/-- `Player` record from `types.ts`; ids are modelled as naturals. -/

structure Player where
  id : Nat
  position : Pos
  gridPosition : GridPos
  bounds : Bounds
  active : Bool
  lives : Int
  speed : ℚ
  bombCount : Nat
  maxBombs : Nat
  fireRange : Nat
  activeBombs : Nat
  powerUps : List PowerUpType
  bombType : BombType
  isInvincible : Bool
  invincibilityTimer : ℚ
  direction : Dir4
  isMoving : Bool
  isDead : Bool
  score : Int
  kills : Nat
  animationFrame : ℚ
  color : String
  playerIndex : Nat
  deriving DecidableEq, Repr

/-- `Bomb` record from `types.ts`.  The countdown `timer` is `Option ℚ`, with
`none` standing for the JavaScript `Infinity` used by remote bombs. -/

structure Bomb where
  id : Nat
  position : Pos
  gridPosition : GridPos
  bounds : Bounds
  active : Bool
  type : BombType
  range : Nat
  timer : Option ℚ
  ownerId : Nat
  isDetonated : Bool
  animationFrame : ℚ
  deriving DecidableEq, Repr

/-- `Explosion` record from `types.ts` — one per-tile hazard. -/

structure Explosion where
  id : Nat
  position : Pos
  gridPosition : GridPos
  bounds : Bounds
  active : Bool
  range : Nat
  direction : Dir5
  isEnd : Bool
  timer : ℚ
  animationFrame : ℚ
  deriving DecidableEq, Repr

/-- `PowerUp` record from `types.ts`. -/

structure PowerUp where
  id : Nat
  position : Pos
  gridPosition : GridPos
  bounds : Bounds
  active : Bool
  type : PowerUpType
  animationFrame : ℚ
  deriving DecidableEq, Repr

/-- `Enemy` record from `types.ts`. -/

structure Enemy where
  id : Nat
  position : Pos
  gridPosition : GridPos
  bounds : Bounds
  active : Bool
  type : EnemyType
  health : Int
  speed : ℚ
  direction : Pos
  targetPosition : Option Pos
  state : EnemyState
  stateTimer : ℚ
  animationFrame : ℚ
  canPassWalls : Bool
  canPlaceBombs : Bool
  isShielded : Bool
  shieldTimer : ℚ
  specialAbilityCooldown : ℚ
  points : Int
  deriving DecidableEq, Repr

/-- `Boss` record from `types.ts`, shared by the engine and the boss system. -/

structure Boss where
  id : Nat
  position : Pos
  gridPosition : GridPos
  bounds : Bounds
  active : Bool
  name : String
  health : Int
  maxHealth : Int
  phase : Nat
  maxPhases : Nat
  attackPattern : String
  attackTimer : ℚ
  attackCooldown : ℚ
  isVulnerable : Bool
  vulnerabilityTimer : ℚ
  state : BossState
  animationFrame : ℚ
  dialogue : List String
  currentDialogue : Nat
  points : Int
  deriving DecidableEq, Repr

/-- `GameStateData` from `types.ts`, extended with three reified effects:
`nextId` models the fresh-id supply behind `generateId`, `rngIdx` indexes the
`Math.random()` oracle stream, and `pendingChain` is the queue of bomb ids
whose chain detonation has been `setTimeout`-scheduled. -/

structure EngineState where
  state : GState
  currentWorld : Nat
  currentLevel : Nat
  players : List Player
  bombs : List Bomb
  explosions : List Explosion
  enemies : List Enemy
  powerUps : List PowerUp
  boss : Option Boss
  grid : List (List Tile)
  score : Int
  time : ℚ
  isPaused : Bool
  isMultiplayer : Bool
  roomId : Option Nat
  nextId : Nat
  rngIdx : Nat
  pendingChain : List Nat
  deriving DecidableEq, Repr

/-- `gridToPixel` from `helpers.ts`: multiply by `TILE_SIZE = 48`. -/

def gridToPixel (g : GridPos) : Pos :=
  ⟨(g.col : ℚ) * 48, (g.row : ℚ) * 48⟩

/-- `GameEngine.isValidPosition`. -/

def isValidPosition (grid : List (List Tile)) (pos : GridPos) : Prop :=
  0 ≤ pos.row ∧ pos.row < (grid.length : Int) ∧
  0 ≤ pos.col ∧ pos.col < ((grid.headD []).length : Int)

instance (grid : List (List Tile)) (pos : GridPos) : Decidable (isValidPosition grid pos) := by
  unfold isValidPosition; infer_instance

/-- Read the tile `grid[pos.row][pos.col]`; a default (Empty) tile stands for
the JavaScript `undefined` of an out-of-range access (never reached behind an
`isValidPosition` test). -/

def tileAtD (grid : List (List Tile)) (pos : GridPos) : Tile :=
  (grid[pos.row.toNat]?.getD [])[pos.col.toNat]?.getD
    { type := TILE_EMPTY, position := pos, destructible := false, hasPowerUp := false }

/-- Replace the element at index `n` by `f` of itself (in-place array update). -/

def modifyAt {α : Type} : List α → Nat → (α → α) → List α
  | [], _, _ => []
  | a :: as, 0, f => f a :: as
  | a :: as, n + 1, f => a :: modifyAt as n f

/-- In-place update of the tile at `pos` (`this.state.grid[pos.row][pos.col] = …`). -/

def modifyTile (grid : List (List Tile)) (pos : GridPos) (f : Tile → Tile) :
    List (List Tile) :=
  modifyAt grid pos.row.toNat (fun row => modifyAt row pos.col.toNat f)

/-! ## Bomb placement (`GameEngine.placeBomb`) -/

/-- Look a player up by id; stands for the aliased `Player` object that the
TypeScript methods receive by reference. -/

def getPlayer (s : EngineState) (pid : Nat) : Option Player :=
  s.players.find? (fun p => p.id == pid)

/-- The `this.state.bombs.find` occupancy test inside `placeBomb`. -/

def bombAt (s : EngineState) (pos : GridPos) : Option Bomb :=
  s.bombs.find? (fun b => b.gridPosition.col == pos.col && b.gridPosition.row == pos.row)

/-- `GameEngine.placeBomb`: refuse when the owner is at their bomb cap or the
cell already holds a bomb; otherwise create a bomb carrying the player's
`fireRange` and `bombType`, with timer `BOMB_TIMER = 3000` (Infinity for
remote bombs), and increment the owner's `activeBombs`. -/

def placeBomb (s : EngineState) (pid : Nat) : EngineState × Option Bomb :=
  match getPlayer s pid with
  | none => (s, none)
  | some player =>
    if player.activeBombs ≥ player.maxBombs then (s, none)
    else
      let gridPos := player.gridPosition
      match bombAt s gridPos with
      | some _ => (s, none)
      | none =>
        let pixelPos := gridToPixel gridPos
        let bomb : Bomb :=
          { id := s.nextId
            position := pixelPos
            gridPosition := gridPos
            bounds := { x := pixelPos.x, y := pixelPos.y, width := 48, height := 48 }
            active := true
            type := player.bombType
            range := player.fireRange
            timer := if player.bombType = BombType.remote then none else some 3000
            ownerId := player.id
            isDetonated := false
            animationFrame := 0 }
        ({ s with
            bombs := s.bombs ++ [bomb]
            players := s.players.map (fun p =>
              if p.id == pid then { p with activeBombs := p.activeBombs + 1 } else p)
            nextId := s.nextId + 1 },
          some bomb)

/-- `GameEngine.createInitialState`; the three reified-effect fields start at
zero / empty. -/

def createInitialState : EngineState :=
  { state := GState.menu
    currentWorld := 1
    currentLevel := 1
    players := []
    bombs := []
    explosions := []
    enemies := []
    powerUps := []
    boss := none
    grid := []
    score := 0
    time := 0
    isPaused := false
    isMultiplayer := false
    roomId := none
    nextId := 0
    rngIdx := 0
    pendingChain := [] }

/-- The player colour palette of `GameEngine.createPlayer`. -/

def playerColors : List String := ["#FF6B35", "#4ECDC4", "#FFE66D", "#FF4757"]

/-- `GameEngine.createPlayer` with the persistent-stats map empty (as at
session start), in which case `restorePlayerStats` is a no-op. -/

def createPlayer (nextId : Nat) (playerIndex : Nat) (startPosition : GridPos) : Player :=
  let pixelPos := gridToPixel startPosition
  { id := nextId
    position := pixelPos
    gridPosition := startPosition
    bounds := { x := pixelPos.x, y := pixelPos.y, width := 48 * (3/4), height := 48 * (3/4) }
    active := true
    lives := 3
    speed := 3
    bombCount := 1
    maxBombs := 1
    fireRange := 2
    activeBombs := 0
    powerUps := []
    bombType := BombType.normal
    isInvincible := false
    invincibilityTimer := 0
    direction := Dir4.down
    isMoving := false
    isDead := false
    score := 0
    kills := 0
    animationFrame := 0
    color := playerColors.getD (playerIndex % playerColors.length) ""
    playerIndex := playerIndex }

/-- A capped test player: one active bomb against a cap of one. -/

def c3CapPlayer : Player :=
  { createPlayer 1 0 ⟨1, 1⟩ with activeBombs := 1 }

/-- Test state holding only `c3CapPlayer`. -/

def c3CapState : EngineState :=
  { createInitialState with state := GState.playing, players := [c3CapPlayer], nextId := 2 }

/-- A test player below the bomb cap. -/

def c3FreePlayer : Player := createPlayer 1 0 ⟨1, 1⟩

/-- Test state holding only `c3FreePlayer` and no bombs. -/

def c3FreeState : EngineState :=
  { createInitialState with state := GState.playing, players := [c3FreePlayer], nextId := 2 }



/-! ## Multiplayer server model (`multiplayer.ts`) -/

/-- Bomb variants on the server wire protocol. -/

inductive SBombType
  | normal
  | pierce
  | remote
  | line
  deriving DecidableEq, Repr

/-- Server-side `Player` record. -/

structure SPlayer where
  id : Nat
  oderId : Nat
  name : String
  slot : Nat
  x : ℚ
  y : ℚ
  direction : Int
  isAlive : Bool
  bombs : Nat
  maxBombs : Nat
  fireRange : Nat
  speed : ℚ
  isReady : Bool
  deriving DecidableEq, Repr

/-- Server-side `Bomb` record; grid coordinates as sent by the client. -/

structure SBomb where
  id : Nat
  playerId : Nat
  x : Int
  y : Int
  range : Nat
  timer : ℚ
  type : SBombType
  deriving DecidableEq, Repr

/-- Room lifecycle states. -/

inductive RoomState
  | waiting
  | playing
  | finished
  deriving DecidableEq, Repr

/-- Room game modes. -/

inductive GameMode
  | coop
  | versus
  deriving DecidableEq, Repr

/-- Server `GameRoom`.  The `Map`s become association lists; the untyped
`enemies`/`powerUps` arrays and the `lastUpdate` bookkeeping field, which no
embedded handler reads, are omitted. -/

structure GameRoom where
  id : Nat
  name : String
  hostId : Nat
  players : List SPlayer
  bombs : List SBomb
  gameState : RoomState
  levelId : Nat
  gameMode : GameMode
  maxPlayers : Nat
  grid : List (List Nat)
  startTime : Option ℚ
  deriving DecidableEq, Repr

/-- The `place_bomb` handler body, after socket-to-room resolution.  `bombId`
models the fresh `nanoid(6)`; the explosion `setTimeout` is the separately
modelled `explodeBombS`. -/

def serverPlaceBomb (room : GameRoom) (callerId : Nat) (x y : Int)
    (btype : Option SBombType) (bombId : Nat) : GameRoom :=
  if room.gameState ≠ RoomState.playing then room
  else
    match room.players.find? (fun p => p.id == callerId) with
    | none => room
    | some player =>
      if ¬ player.isAlive then room
      else
        let playerBombs := room.bombs.filter (fun b => b.playerId == callerId)
        if playerBombs.length ≥ player.maxBombs then room
        else
          { room with bombs := room.bombs ++
              [{ id := bombId, playerId := callerId, x := x, y := y,
                 range := player.fireRange, timer := 3000,
                 type := btype.getD SBombType.normal }] }

/-- A playing two-slot room whose single player may carry two bombs. -/

def c4Room : GameRoom :=
  { id := 7
    name := "room"
    hostId := 1
    players := [{ id := 1, oderId := 11, name := "host", slot := 0, x := 1, y := 1,
                  direction := 0, isAlive := true, bombs := 1, maxBombs := 2,
                  fireRange := 1, speed := 1, isReady := true }]
    bombs := []
    gameState := RoomState.playing
    levelId := 1
    gameMode := GameMode.coop
    maxPlayers := 4
    grid := []
    startTime := some 0 }




/-! ## Explosions (`GameEngine.explodeBomb` / `createExplosion`) -/

/-- `GameEngine.addExplosionTile`: append one per-tile hazard with timer
`EXPLOSION_DURATION = 500`. -/

def addExplosionTile (s : EngineState) (pos : GridPos) (direction : Dir5) (isEnd : Bool) :
    EngineState :=
  let pixelPos := gridToPixel pos
  let explosion : Explosion :=
    { id := s.nextId
      position := pixelPos
      gridPosition := pos
      bounds := { x := pixelPos.x + 4, y := pixelPos.y + 4, width := 48 - 8, height := 48 - 8 }
      active := true
      range := 0
      direction := direction
      isEnd := isEnd
      timer := 500
      animationFrame := 0 }
  { s with explosions := s.explosions ++ [explosion], nextId := s.nextId + 1 }

/-- The weighted-draw loop of `GameEngine.spawnPowerUp`: subtract weights from
the random draw until it goes nonpositive; `types[0]` (speed) is the initial
fallback value. -/

def pickWeighted : ℚ → List (PowerUpType × ℚ) → PowerUpType
  | _, [] => PowerUpType.speed
  | r, (t, w) :: rest => if r - w ≤ 0 then t else pickWeighted (r - w) rest

/-- The `types`/`weights` tables of `GameEngine.spawnPowerUp`. -/

def powerUpWeights : List (PowerUpType × ℚ) :=
  [(PowerUpType.speed, 1/4), (PowerUpType.bombCount, 1/4), (PowerUpType.fireRange, 1/4),
   (PowerUpType.powerBomb, 1/10), (PowerUpType.remoteBomb, 1/10), (PowerUpType.lineBomb, 1/20)]

/-- `GameEngine.spawnPowerUp`; `rand` is the `Math.random()` oracle stream,
indexed by the state's draw counter. -/

def spawnPowerUp (rand : Nat → ℚ) (s : EngineState) (pos : GridPos) : EngineState :=
  let type := pickWeighted (rand s.rngIdx) powerUpWeights
  let pixelPos := gridToPixel pos
  let powerUp : PowerUp :=
    { id := s.nextId
      position := pixelPos
      gridPosition := pos
      bounds := { x := pixelPos.x + 8, y := pixelPos.y + 8, width := 48 - 16, height := 48 - 16 }
      active := true
      type := type
      animationFrame := 0 }
  { s with powerUps := s.powerUps ++ [powerUp], nextId := s.nextId + 1, rngIdx := s.rngIdx + 1 }

/-- `GameEngine.destroyBlock`: clear the tile to Empty, then spawn the
concealed power-up (if any) and clear the `hasPowerUp` flag. -/

def destroyBlock (rand : Nat → ℚ) (s : EngineState) (pos : GridPos) : EngineState :=
  let tile := tileAtD s.grid pos
  let s1 := { s with grid := modifyTile s.grid pos (fun t =>
    { t with type := TILE_EMPTY, destructible := false }) }
  if tile.hasPowerUp then
    let s2 := spawnPowerUp rand s1 pos
    { s2 with grid := modifyTile s2.grid pos (fun t => { t with hasPowerUp := false }) }
  else s1

/-- Blast-ray cell at index `i`: `center + (dx, dy) · i`. -/

def rayPos (center : GridPos) (dx dy : Int) (i : Nat) : GridPos :=
  ⟨center.col + dx * i, center.row + dy * i⟩

/-- The chain-reaction lookup in `createExplosion`: an undetonated bomb on the
hazard cell has its delayed detonation `setTimeout`-scheduled, modelled by
appending its id to the pending-chain queue. -/

def chainCheck (pos : GridPos) (s : EngineState) : EngineState :=
  match s.bombs.find? (fun b =>
      b.gridPosition.col == pos.col && b.gridPosition.row == pos.row && !b.isDetonated) with
  | some chainBomb => { s with pendingChain := s.pendingChain ++ [chainBomb.id] }
  | none => s

/-- The per-direction propagation loop of `GameEngine.createExplosion`, with
loop counter `i` and remaining iteration count `fuel` (`fuel = range - i + 1`
on entry): stop outside the grid or at a Wall; place a hazard; at a Block,
destroy it and stop unless penetrating; schedule chain reactions. -/

def explodeDirGo (rand : Nat → ℚ) (center : GridPos) (dx dy : Int) (d : Dir5)
    (range : Nat) (penetrating : Bool) : Nat → Nat → EngineState → EngineState
  | _, 0, s => s
  | i, fuel + 1, s =>
    let pos := rayPos center dx dy i
    if isValidPosition s.grid pos then
      let tile := tileAtD s.grid pos
      if tile.type = TILE_WALL then s
      else
        let s1 := addExplosionTile s pos d (decide (i = range))
        if tile.type = TILE_BLOCK then
          let s2 := destroyBlock rand s1 pos
          if penetrating then
            explodeDirGo rand center dx dy d range penetrating (i + 1) fuel (chainCheck pos s2)
          else s2
        else
          explodeDirGo rand center dx dy d range penetrating (i + 1) fuel (chainCheck pos s1)
    else s

/-- One full direction of `createExplosion`: the loop `for i in 1..range`. -/

def explodeDir (rand : Nat → ℚ) (center : GridPos) (dx dy : Int) (d : Dir5)
    (range : Nat) (penetrating : Bool) (s : EngineState) : EngineState :=
  explodeDirGo rand center dx dy d range penetrating 1 range s

/-- `GameEngine.createExplosion`: one center hazard, then the four cardinal
rays in source order (up, down, left, right). -/

def createExplosion (rand : Nat → ℚ) (s : EngineState) (center : GridPos)
    (range : Nat) (penetrating : Bool) : EngineState :=
  let s0 := addExplosionTile s center Dir5.center false
  let s1 := explodeDir rand center 0 (-1) Dir5.up range penetrating s0
  let s2 := explodeDir rand center 0 1 Dir5.down range penetrating s1
  let s3 := explodeDir rand center (-1) 0 Dir5.left range penetrating s2
  explodeDir rand center 1 0 Dir5.right range penetrating s3

/-- `GameEngine.explodeBomb`: no-op on an already-detonated bomb; otherwise
mark it detonated, create the explosion, decrement the owner's `activeBombs`
(`Math.max(0, · - 1)` is `Nat` truncated subtraction), and remove the bomb.
The updated bomb object (mutated in place in the source) is returned. -/

def explodeBomb (rand : Nat → ℚ) (s : EngineState) (b : Bomb) : EngineState × Bomb :=
  if b.isDetonated then (s, b)
  else
    let b1 := { b with isDetonated := true }
    let s1 := createExplosion rand s b.gridPosition b.range (b.type == BombType.penetrating)
    let s2 := { s1 with players := s1.players.map (fun (p : Player) =>
        if p.id == b.ownerId then { p with activeBombs := p.activeBombs - 1 } else p) }
    let s3 := { s2 with bombs := s2.bombs.filter (fun bb => bb.id != b.id) }
    (s3, b1)


/-! ## Support lemmas for the explosion proofs -/

/-- A cell the blast passes through freely: inside the grid and neither Wall
nor Block. -/

def openCell (grid : List (List Tile)) (pos : GridPos) : Prop :=
  isValidPosition grid pos ∧ (tileAtD grid pos).type ≠ TILE_WALL ∧
    (tileAtD grid pos).type ≠ TILE_BLOCK

instance (grid : List (List Tile)) (pos : GridPos) : Decidable (openCell grid pos) := by
  unfold openCell; infer_instance

/-- The four blast directions in source order (up, down, left, right). -/

def blastDirs : List (Int × Int) := [(0, -1), (0, 1), (-1, 0), (1, 0)]


/-- Test state with the standard wall-pattern grid and no blocks. -/

def c1OpenState : EngineState :=
  { createInitialState with state := GState.playing, grid := initGrid 15 13 }

/-- The standard grid with one destructible Block added at (col 3, row 1). -/

def c1BlockGrid : List (List Tile) :=
  modifyTile (initGrid 15 13) ⟨3, 1⟩
    (fun t => { t with type := TILE_BLOCK, destructible := true })

/-- Test state over `c1BlockGrid`. -/

def c1BlockState : EngineState :=
  { createInitialState with state := GState.playing, grid := c1BlockGrid }


/-! ## Player damage (`GameEngine.damagePlayer`) -/

/-- `GameEngine.damagePlayer`: a no-op on an invincible player; otherwise lose
one life, become invincible for `PLAYER_INVINCIBILITY_TIME = 2000`, die at
zero lives, and flip the session to game-over when no player remains alive. -/

def damagePlayer (s : EngineState) (pid : Nat) : EngineState :=
  match getPlayer s pid with
  | none => s
  | some player =>
    if player.isInvincible then s
    else
      let lives' := player.lives - 1
      let dead := lives' ≤ 0
      let players' := s.players.map (fun (p : Player) =>
        if p.id == pid then
          { p with lives := lives', isInvincible := true, invincibilityTimer := 2000,
                   isDead := if dead then true else p.isDead }
        else p)
      let s1 := { s with players := players' }
      if dead then
        if (players'.filter (fun p => !p.isDead)).length = 0 then
          { s1 with state := GState.gameOver }
        else s1
      else s1


/-- An invincible test player. -/

def c7InvPlayer : Player :=
  { createPlayer 1 0 ⟨1, 1⟩ with isInvincible := true, invincibilityTimer := 500 }

/-- Test state holding only `c7InvPlayer`. -/

def c7InvState : EngineState :=
  { createInitialState with state := GState.playing, players := [c7InvPlayer] }


/-! ## Power-up collection (`GameEngine.collectPowerUp`) -/

/-- The stat switch of `GameEngine.collectPowerUp`, applied to the collecting
player: speed, bomb count and fire range are capped at `PLAYER_MAX_SPEED = 8`,
`BOMB_MAX_COUNT = 8` and `BOMB_MAX_RANGE = 8`; the three special types set the
bomb type and record the grant. -/

def applyPowerUp (p : Player) (t : PowerUpType) : Player :=
  match t with
  | PowerUpType.speed => { p with speed := min (p.speed + 1/2) 8 }
  | PowerUpType.bombCount => { p with maxBombs := min (p.maxBombs + 1) 8 }
  | PowerUpType.fireRange => { p with fireRange := min (p.fireRange + 1) 8 }
  | PowerUpType.powerBomb =>
    { p with
      bombType := BombType.penetrating
      powerUps := p.powerUps ++ [PowerUpType.powerBomb] }
  | PowerUpType.remoteBomb =>
    { p with
      bombType := BombType.remote
      powerUps := p.powerUps ++ [PowerUpType.remoteBomb] }
  | PowerUpType.lineBomb =>
    { p with
      bombType := BombType.line
      powerUps := p.powerUps ++ [PowerUpType.lineBomb] }

/-- `GameEngine.collectPowerUp`: apply the stat switch, then consume the
power-up (deactivated and filtered out of the list by id). -/

def collectPowerUp (s : EngineState) (pid : Nat) (powerUp : PowerUp) : EngineState :=
  { s with
    players := s.players.map (fun p =>
      if p.id == pid then applyPowerUp p powerUp.type else p)
    powerUps := s.powerUps.filter (fun q => q.id != powerUp.id) }

/-- The implicit stat caps of C10. -/

def statsCapped (p : Player) : Prop :=
  p.speed ≤ 8 ∧ p.maxBombs ≤ 8 ∧ p.fireRange ≤ 8


/-- A test power-up of type speed. -/

def c10PowerUp : PowerUp :=
  { id := 50, position := ⟨0, 0⟩, gridPosition := ⟨0, 0⟩,
    bounds := { x := 8, y := 8, width := 32, height := 32 },
    active := true, type := PowerUpType.speed, animationFrame := 0 }

/-- A player with all three boosted stats already at their caps. -/

def c10MaxPlayer : Player :=
  { createPlayer 1 0 ⟨1, 1⟩ with speed := 8, maxBombs := 8, fireRange := 8 }


/-! ## Enemies (`GameEngine.spawnEnemy` / `killEnemy`) -/

/-- Per-type enemy parameters (`enemyConfigs` inside `GameEngine.spawnEnemy`). -/

structure EnemyConfig where
  speed : ℚ
  health : Int
  points : Int
  canPassWalls : Bool
  canPlaceBombs : Bool
  isShielded : Bool
  deriving DecidableEq, Repr

/-- The `enemyConfigs` table (speed, health, points, flags). -/

def enemyConfig : EnemyType → EnemyConfig
  | EnemyType.slime => ⟨12/10, 1, 100, false, false, false⟩
  | EnemyType.bat => ⟨5/2, 1, 200, false, false, false⟩
  | EnemyType.ghost => ⟨9/5, 1, 300, true, false, false⟩
  | EnemyType.bomber => ⟨12/10, 2, 400, false, true, false⟩
  | EnemyType.charger => ⟨7/2, 1, 300, false, false, false⟩
  | EnemyType.teleporter => ⟨1, 1, 500, false, false, false⟩
  | EnemyType.shield => ⟨12/10, 2, 400, false, false, true⟩
  | EnemyType.splitter => ⟨3/2, 1, 250, false, false, false⟩

/-- The enemy record built by `GameEngine.spawnEnemy`. -/

def mkEnemy (id : Nat) (t : EnemyType) (pos : GridPos) : Enemy :=
  let pixelPos := gridToPixel pos
  let config := enemyConfig t
  { id := id
    position := pixelPos
    gridPosition := pos
    bounds := { x := pixelPos.x + 4, y := pixelPos.y + 4,
                width := 48 * (7/10), height := 48 * (7/10) }
    active := true
    type := t
    health := config.health
    speed := config.speed
    direction := ⟨0, 0⟩
    targetPosition := none
    state := EnemyState.idle
    stateTimer := 0
    animationFrame := 0
    canPassWalls := config.canPassWalls
    canPlaceBombs := config.canPlaceBombs
    isShielded := config.isShielded
    shieldTimer := 0
    specialAbilityCooldown := 0
    points := config.points }

/-- `GameEngine.spawnEnemy`: append a fresh enemy and return it. -/

def spawnEnemy (s : EngineState) (t : EnemyType) (pos : GridPos) : EngineState × Enemy :=
  let e := mkEnemy s.nextId t pos
  ({ s with enemies := s.enemies ++ [e], nextId := s.nextId + 1 }, e)

/-- One arm of the splitter's death in `killEnemy`: when the offset cell is a
valid Empty tile, spawn a mini slime there and then bump its speed by ×1.5 and
set its points to 50 (mutating the just-pushed object, modelled by an id-keyed
map). -/

def spawnSplit (s : EngineState) (enemy : Enemy) (dxo : Int) : EngineState :=
  let newPos : GridPos := ⟨enemy.gridPosition.col + dxo, enemy.gridPosition.row⟩
  if isValidPosition s.grid newPos ∧ (tileAtD s.grid newPos).type = TILE_EMPTY then
    let s1 := (spawnEnemy s EnemyType.slime newPos).1
    let mini := (spawnEnemy s EnemyType.slime newPos).2
    { s1 with enemies := s1.enemies.map (fun e =>
        if e.id == mini.id then { e with speed := e.speed * (3/2), points := 50 } else e) }
  else s

/-- The `if (killer)` credit block of `killEnemy`. -/

def creditKiller (s : EngineState) (enemy : Enemy) (killer : Option Nat) : EngineState :=
  match killer with
  | some kid =>
    { s with players := s.players.map (fun (p : Player) =>
        if p.id == kid then { p with score := p.score + enemy.points, kills := p.kills + 1 }
        else p) }
  | none => s

/-- `GameEngine.killEnemy`: credit the killer and the session score; a dead
splitter spawns mini slimes at its left and right neighbour cells when those
are empty; finally the enemy is removed.  (The source also flags the passed
object `dying`/inactive before discarding it.) -/

def killEnemy (s : EngineState) (enemy : Enemy) (killer : Option Nat) : EngineState :=
  let s1 := creditKiller s enemy killer
  let s2 := { s1 with score := s1.score + enemy.points }
  let s3 :=
    if enemy.type = EnemyType.splitter ∧ enemy.health ≤ 0 then
      spawnSplit (spawnSplit s2 enemy (-1)) enemy 1
    else s2
  { s3 with enemies := s3.enemies.filter (fun e => e.id != enemy.id) }

/-- A dead splitter test enemy at (col 2, row 1). -/

def c8Splitter : Enemy := { mkEnemy 5 EnemyType.splitter ⟨2, 1⟩ with health := 0 }

/-- State with the splitter and a Block at its right neighbour (3, 1). -/

def c8BlockState : EngineState :=
  { createInitialState with
    state := GState.playing
    grid := c1BlockGrid
    enemies := [c8Splitter]
    nextId := 6 }

/-- State with the splitter and both horizontal neighbours Empty. -/

def c8OpenState : EngineState :=
  { createInitialState with
    state := GState.playing
    grid := initGrid 15 13
    enemies := [c8Splitter]
    nextId := 6 }




/-! ## Boss system (`BossSystem.ts`) and the engine's own boss damage path -/

/-- Static boss parameters (`BossConfig` in `BossSystem.ts`). -/

structure BossCfg where
  name : String
  maxHealth : Int
  maxPhases : Nat
  attackPatterns : List String
  vulnerabilityDuration : ℚ
  attackCooldown : ℚ
  size : Nat
  deriving DecidableEq, Repr

/-- The `BOSS_CONFIGS` table, keyed as in the source with `king_slime` as the
fallback entry. -/

def bossConfigOf : String → BossCfg
  | "dark_knight" =>
    ⟨"Dark Knight", 15, 3, ["charge", "sword_wave", "shield_bash", "bomb_throw"],
      2500, 1800, 3⟩
  | "fire_dragon" =>
    ⟨"Fire Dragon", 20, 3, ["fire_breath", "tail_sweep", "dive_bomb", "summon_flames"],
      2000, 1500, 4⟩
  | "shadow_lord" =>
    ⟨"Shadow Lord", 25, 4, ["shadow_clone", "dark_wave", "teleport_strike", "void_zone"],
      1800, 1200, 3⟩
  | "demon_king" =>
    ⟨"Demon King", 40, 5,
      ["hellfire", "demon_summon", "meteor_strike", "dark_explosion", "ultimate_doom"],
      1500, 1000, 4⟩
  | _ => ⟨"King Slime", 10, 2, ["jump", "spawn_minions", "slam"], 3000, 2000, 3⟩

/-- `BossSystem.getBossType`: display name back to config key, defaulting to
`king_slime`. -/

def getBossType : String → String
  | "King Slime" => "king_slime"
  | "Dark Knight" => "dark_knight"
  | "Fire Dragon" => "fire_dragon"
  | "Shadow Lord" => "shadow_lord"
  | "Demon King" => "demon_king"
  | _ => "king_slime"

/-- `randomElement` from `helpers.ts`, with the `Math.random()` index draw
modelled by `rnd mod length`. -/

def randomElement (rnd : Nat) (l : List String) : String :=
  l.getD (rnd % l.length) ""

/-- The JavaScript `%` on nonnegative floats (used for animation frames). -/

def jsMod (a b : ℚ) : ℚ := a - b * (⌊a / b⌋ : ℤ)

/-- `BossSystem.damageBoss`: damage is accepted only while vulnerable;
crossing the phase threshold (`1 - phase / maxPhases` of max health, the float
division modelled exactly over ℚ) starts a phase transition; health ≤ 0
starts dying. -/

def damageBossS (b : Boss) (damage : Int) : Boss :=
  if ¬ b.isVulnerable then b
  else
    let b1 := { b with health := b.health - damage }
    let healthPercent : ℚ := (b1.health : ℚ) / (b1.maxHealth : ℚ)
    let phaseThreshold : ℚ := 1 - (b1.phase : ℚ) / (b1.maxPhases : ℚ)
    let b2 :=
      if healthPercent ≤ phaseThreshold ∧ b1.phase < b1.maxPhases then
        { b1 with
          phase := b1.phase + 1
          state := BossState.transition
          attackTimer := 2000
          isVulnerable := false }
      else b1
    if b2.health ≤ 0 then
      { b2 with state := BossState.dying, attackTimer := 3000, isVulnerable := false }
    else b2

/-- `BossSystem.update`: the per-state dispatch (state effects only; the
attack payload and dialogue lines go to external callbacks).  Returns the
updated boss together with the number of defeat events fired by this call
(0 or 1).  `rnd` models the `randomElement` draw of the idle branch. -/

def bossUpdate (b : Boss) (dt : ℚ) (rnd : Nat) : Boss × Nat :=
  if ¬ b.active then (b, 0)
  else
    let b0 := { b with animationFrame := jsMod (b.animationFrame + dt * (1/100)) 4 }
    match b0.state with
    | BossState.intro =>
      if b0.currentDialogue < b0.dialogue.length then
        ({ b0 with currentDialogue := b0.currentDialogue + 1 }, 0)
      else
        ({ b0 with state := BossState.idle, attackTimer := b0.attackCooldown }, 0)
    | BossState.idle =>
      let b1 := { b0 with attackTimer := b0.attackTimer - dt }
      if b1.attackTimer ≤ 0 then
        let config := bossConfigOf (getBossType b1.name)
        let availablePatterns := config.attackPatterns.take (b1.phase + 1)
        ({ b1 with
            attackPattern := randomElement rnd availablePatterns
            state := BossState.attacking }, 0)
      else (b1, 0)
    | BossState.attacking =>
      ({ b0 with
          state := BossState.vulnerable
          isVulnerable := true
          vulnerabilityTimer :=
            (bossConfigOf (getBossType b0.name)).vulnerabilityDuration }, 0)
    | BossState.vulnerable =>
      let b1 := { b0 with vulnerabilityTimer := b0.vulnerabilityTimer - dt }
      if b1.vulnerabilityTimer ≤ 0 then
        ({ b1 with
            isVulnerable := false
            state := BossState.idle
            attackTimer := b1.attackCooldown }, 0)
      else (b1, 0)
    | BossState.transition =>
      let b1 := { b0 with attackTimer := b0.attackTimer - dt }
      if b1.attackTimer ≤ 0 then
        ({ b1 with state := BossState.idle, attackTimer := b1.attackCooldown }, 0)
      else (b1, 0)
    | BossState.dying =>
      let b1 := { b0 with attackTimer := b0.attackTimer - dt }
      if b1.attackTimer ≤ 0 then
        ({ b1 with state := BossState.defeated, active := false }, 1)
      else (b1, 0)
    | BossState.defeated => (b0, 0)

/-- `GameEngine.damageBoss` — the boss-damage path actually driven by
`checkCollisions`: decrement health unconditionally (no vulnerability check)
and on health ≤ 0 deactivate the boss, add its points, and fire the engine's
own defeat event. -/

def engineDamageBoss (s : EngineState) : EngineState :=
  match s.boss with
  | none => s
  | some boss =>
    let boss1 := { boss with health := boss.health - 1 }
    if boss1.health ≤ 0 then
      { s with
        boss := some { boss1 with active := false }
        score := s.score + boss1.points }
    else { s with boss := some boss1 }

/-- A non-vulnerable, active test boss at full health. -/

def c2Boss : Boss :=
  { id := 9
    position := ⟨0, 0⟩
    gridPosition := ⟨5, 5⟩
    bounds := { x := 0, y := 0, width := 144, height := 144 }
    active := true
    name := "King Slime"
    health := 10
    maxHealth := 10
    phase := 1
    maxPhases := 2
    attackPattern := "jump"
    attackTimer := 0
    attackCooldown := 2000
    isVulnerable := false
    vulnerabilityTimer := 0
    state := BossState.idle
    animationFrame := 0
    dialogue := []
    currentDialogue := 0
    points := 5000 }

/-- Engine state holding `c2Boss`. -/

def c2State : EngineState :=
  { createInitialState with state := GState.playing, boss := some c2Boss }

/-- A vulnerable boss about to die. -/

def c2VulnBoss : Boss :=
  { c2Boss with isVulnerable := true, health := 1, state := BossState.vulnerable }

/-- A dying boss whose death animation is about to finish. -/

def c2DyingBoss : Boss :=
  { c2Boss with state := BossState.dying, attackTimer := 100, isVulnerable := false }

/-- A defeated, inactive boss. -/

def c2DeadBoss : Boss :=
  { c2Boss with state := BossState.defeated, active := false }




/-! ## Multiplayer `start_game` (`multiplayer.ts`) -/

/-- Outcome of a `start_game` request: the two error emissions or success. -/

inductive StartOutcome
  | errNotHost
  | errNotReady
  | started
  deriving DecidableEq, Repr

/-- The `start_game` handler body, after socket-to-room resolution: only the
host may start; every player must be ready or be the host; on success the
room enters `playing` with a fresh 15×13 grid and a start time. -/

def startGame (room : GameRoom) (callerId : Nat) (rnd : Nat → Nat → Bool) (now : ℚ) :
    GameRoom × StartOutcome :=
  if room.hostId ≠ callerId then (room, StartOutcome.errNotHost)
  else if ¬ (room.players.all (fun p => p.isReady || p.id == room.hostId)) then
    (room, StartOutcome.errNotReady)
  else
    ({ room with
        gameState := RoomState.playing
        startTime := some now
        grid := generateGrid 15 13 rnd }, StartOutcome.started)


/-- Ready host of the C9 test rooms. -/

def c9P1 : SPlayer :=
  { id := 1, oderId := 11, name := "host", slot := 0, x := 1, y := 1, direction := 0,
    isAlive := true, bombs := 1, maxBombs := 1, fireRange := 1, speed := 1, isReady := true }

/-- A ready non-host player. -/

def c9P2 : SPlayer :=
  { c9P1 with id := 2, oderId := 12, name := "p2", slot := 1, x := 13, isReady := true }

/-- A non-ready non-host player. -/

def c9P3 : SPlayer :=
  { c9P1 with id := 3, oderId := 13, name := "p3", slot := 2, y := 11, isReady := false }

/-- Waiting room with one non-ready player. -/

def c9RoomNotReady : GameRoom :=
  { id := 21, name := "lobby", hostId := 1, players := [c9P1, c9P2, c9P3], bombs := [],
    gameState := RoomState.waiting, levelId := 1, gameMode := GameMode.coop,
    maxPlayers := 4, grid := [], startTime := none }

/-- The same room once every non-host player is ready. -/

def c9RoomReady : GameRoom :=
  { c9RoomNotReady with players := [c9P1, c9P2, { c9P3 with isReady := true }] }


/-! ## Theorems -/

theorem tileTypeAt_initGrid (width height x y : Nat) (hx : x < width) (hy : y < height) :
    tileTypeAt (initGrid width height) y x =
      some (if y = 0 ∨ y = height - 1 ∨ x = 0 ∨ x = width - 1 ∨ (y % 2 = 0 ∧ x % 2 = 0)
            then TILE_WALL else TILE_EMPTY) := by
  simp only [tileTypeAt, initGrid, List.getElem?_map, List.getElem?_range, hx, hy,
    if_pos, Option.map_some', Option.some_bind]
  by_cases h : y = 0 ∨ y = height - 1 ∨ x = 0 ∨ x = width - 1 ∨ (y % 2 = 0 ∧ x % 2 = 0)
  · have : (decide (y = 0) || decide (y = height - 1) ||
        decide (x = 0) || decide (x = width - 1) ||
        (decide (y % 2 = 0) && decide (x % 2 = 0))) = true := by
      simp only [Bool.or_eq_true, Bool.and_eq_true, decide_eq_true_eq]
      tauto
    simp [this, h]
  · have : (decide (y = 0) || decide (y = height - 1) ||
        decide (x = 0) || decide (x = width - 1) ||
        (decide (y % 2 = 0) && decide (x % 2 = 0))) = false := by
      simp only [Bool.or_eq_false_iff, Bool.and_eq_false_iff]
      push_neg at h
      refine ⟨⟨⟨⟨?_, ?_⟩, ?_⟩, ?_⟩, ?_⟩ <;> simp only [decide_eq_false_iff_not, decide_eq_true_eq]
      · exact h.1
      · exact h.2.1
      · exact h.2.2.1
      · exact h.2.2.2.1
      · rcases Nat.eq_zero_or_pos (y % 2) with h0 | h0
        · exact Or.inr (by simpa [h0] using h.2.2.2.2 h0)
        · exact Or.inl (by omega)
    simp [this, h]

theorem cellAt_generateGrid (width height x y : Nat) (rnd : Nat → Nat → Bool)
    (hx : x < width) (hy : y < height) :
    cellAt (generateGrid width height rnd) y x =
      some (if x = 0 ∨ x = width - 1 ∨ y = 0 ∨ y = height - 1 then 1
            else if x % 2 = 0 ∧ y % 2 = 0 then 1
            else if cornerRegion width height x y then 0
            else if rnd y x then 2 else 0) := by
  simp [cellAt, generateGrid, List.getElem?_map, List.getElem?_range, hx, hy, cornerRegion]

/-- C6 counterexample: cell (row 2, col 2) lies in a corner 3×3 region yet is a
Wall in both the client `initGrid` and the server `generateGrid` (the even-even
pillar test precedes the safe-spawn-zone test), so it is not the case that
every cell of the four corner 3×3 regions is walkable after construction. -/
theorem c6_corner_wall_counterexample :
    cornerRegion 15 13 2 2 ∧
    tileTypeAt (initGrid 15 13) 2 2 = some TILE_WALL ∧
    cellAt (generateGrid 15 13 (fun _ _ => false)) 2 2 = some 1 := by
  refine ⟨by decide, by decide, by decide⟩

/-- C6 (amended): after grid construction, every border cell and every cell at
an even (row, col) intersection has tile type Wall, and every cell of the four
corner 3×3 regions that is neither a border cell nor an even-even intersection
is walkable (Empty) — in the client `initGrid` and, for every random-block
oracle, in the server `generateGrid`. -/
theorem c6_grid_construction (width height x y : Nat) (rnd : Nat → Nat → Bool)
    (hx : x < width) (hy : y < height) :
    ((y = 0 ∨ y = height - 1 ∨ x = 0 ∨ x = width - 1 ∨ (y % 2 = 0 ∧ x % 2 = 0)) →
      tileTypeAt (initGrid width height) y x = some TILE_WALL ∧
      cellAt (generateGrid width height rnd) y x = some 1) ∧
    (cornerRegion width height x y →
      ¬ (y = 0 ∨ y = height - 1 ∨ x = 0 ∨ x = width - 1 ∨ (y % 2 = 0 ∧ x % 2 = 0)) →
      tileTypeAt (initGrid width height) y x = some TILE_EMPTY ∧
      cellAt (generateGrid width height rnd) y x = some 0) := by
  rw [tileTypeAt_initGrid width height x y hx hy, cellAt_generateGrid width height x y rnd hx hy]
  constructor
  · intro h
    constructor
    · rw [if_pos h]
    · by_cases hb : x = 0 ∨ x = width - 1 ∨ y = 0 ∨ y = height - 1
      · rw [if_pos hb]
      · rw [if_neg hb, if_pos]
        tauto
  · intro hc h
    push_neg at h
    obtain ⟨h0, h1, h2, h3, h4⟩ := h
    constructor
    · rw [if_neg]
      push_neg
      exact ⟨h0, h1, h2, h3, h4⟩
    · rw [if_neg (by tauto), if_neg (fun hp => h4 hp.2 hp.1), if_pos hc]

/-- Witness for `c6_grid_construction`: in the 15×13 grid, the border cell
(row 0, col 5) is a Wall and the interior corner cell (row 1, col 1) is Empty,
in both constructions. -/
theorem c6_grid_construction_witness :
    tileTypeAt (initGrid 15 13) 0 5 = some TILE_WALL ∧
    cellAt (generateGrid 15 13 (fun _ _ => true)) 0 5 = some 1 ∧
    tileTypeAt (initGrid 15 13) 1 1 = some TILE_EMPTY ∧
    cellAt (generateGrid 15 13 (fun _ _ => true)) 1 1 = some 0 := by
  have h1 := (c6_grid_construction 15 13 5 0 (fun _ _ => true) (by decide) (by decide)).1
    (by decide)
  have h2 := (c6_grid_construction 15 13 1 1 (fun _ _ => true) (by decide) (by decide)).2
    (by decide) (by decide)
  exact ⟨h1.1, h1.2, h2.1, h2.2⟩

theorem find?_map_ite {α : Type} (l : List α) (p : α → Bool) (f : α → α)
    (hf : ∀ a, p (f a) = p a) :
    (l.map (fun a => if p a then f a else a)).find? p = (l.find? p).map f := by
  induction l with
  | nil => simp
  | cons a as ih =>
    by_cases h : p a
    · simp [List.find?, h, hf, ih]
    · simp only [List.map_cons, if_neg h]
      rw [List.find?_cons_of_neg _ (by simp [h]), List.find?_cons_of_neg _ (by simp [h]), ih]

/-- C3: `placeBomb` fails silently — returning no bomb and leaving the state
unchanged — when the player's `activeBombs` has reached `maxBombs` or a bomb
already occupies the player's cell; on success it creates a bomb carrying the
player's `fireRange` and `bombType`, appends it, increments the player's
`activeBombs` by one, and sets the countdown to the fixed `BOMB_TIMER` unless
the bomb type is remote, in which case the timer is infinite (`none`). -/
theorem c3_place_bomb_guards (s : EngineState) (pid : Nat) (p : Player)
    (hp : getPlayer s pid = some p) :
    (p.activeBombs ≥ p.maxBombs → placeBomb s pid = (s, none)) ∧
    ((bombAt s p.gridPosition).isSome → placeBomb s pid = (s, none)) ∧
    (p.activeBombs < p.maxBombs → bombAt s p.gridPosition = none →
      ∃ b s', placeBomb s pid = (s', some b) ∧
        b.range = p.fireRange ∧ b.type = p.bombType ∧ b.ownerId = p.id ∧
        b.timer = (if p.bombType = BombType.remote then none else some 3000) ∧
        s'.bombs = s.bombs ++ [b] ∧
        s'.grid = s.grid ∧ s'.explosions = s.explosions ∧
        getPlayer s' pid = some { p with activeBombs := p.activeBombs + 1 }) := by
  refine ⟨?_, ?_, ?_⟩
  · intro h
    simp [placeBomb, hp, h]
  · intro h
    rw [Option.isSome_iff_exists] at h
    obtain ⟨b, hb⟩ := h
    by_cases hcap : p.activeBombs ≥ p.maxBombs
    · simp [placeBomb, hp, hcap]
    · simp [placeBomb, hp, hcap, hb]
  · intro hcap hfree
    have hcap' : ¬ p.activeBombs ≥ p.maxBombs := Nat.not_le.mpr hcap
    have hgp : ∀ t : EngineState,
        t.players = s.players.map (fun q =>
          if q.id == pid then { q with activeBombs := q.activeBombs + 1 } else q) →
        getPlayer t pid = some { p with activeBombs := p.activeBombs + 1 } := by
      intro t ht
      unfold getPlayer at hp ⊢
      rw [ht, find?_map_ite s.players (fun q => q.id == pid)
            (fun q => { q with activeBombs := q.activeBombs + 1 }) (fun a => rfl), hp,
        Option.map_some']
    simp only [placeBomb, hp, hfree, hcap', if_false]
    exact ⟨_, _, rfl, rfl, rfl, rfl, rfl, rfl, rfl, rfl, hgp _ rfl⟩

/-- Witness for `c3_place_bomb_guards`: a player at the bomb cap is refused; a
player below the cap on a free cell gets a bomb with their stats. -/
theorem c3_place_bomb_guards_witness :
    (placeBomb c3CapState 1 = (c3CapState, none)) ∧
    (∃ b s', placeBomb c3FreeState 1 = (s', some b) ∧
      b.range = 2 ∧ b.type = BombType.normal ∧
      b.timer = some 3000 ∧ s'.bombs = c3FreeState.bombs ++ [b]) := by
  constructor
  · exact (c3_place_bomb_guards c3CapState 1 c3CapPlayer rfl).1 (by decide)
  · obtain ⟨b, s', h1, h2, h3, -, h5, h6, -⟩ :=
      (c3_place_bomb_guards c3FreeState 1 c3FreePlayer rfl).2.2 (by decide) rfl
    exact ⟨b, s', h1, h2, h3, by simpa using h5, h6⟩

/-- C4 counterexample: the server's `place_bomb` handler checks only the
per-player bomb count, so two placements at the same cell (5, 5) both succeed
and the room ends up with two live bombs in one grid cell — the claimed
at-most-one-bomb-per-cell invariant is not preserved by the multiplayer
server's bomb placement. -/
theorem c4_server_double_bomb_counterexample :
    ((serverPlaceBomb (serverPlaceBomb c4Room 1 5 5 none 100) 1 5 5 none 101).bombs.map
        (fun b => (b.x, b.y))) = [(5, 5), (5, 5)] := by
  rfl

/-- C4 (amended): the client engine's `placeBomb` preserves the invariant that
no two live bombs share a grid cell (it refuses to place on an occupied cell);
the multiplayer server's `place_bomb` enforces only the per-player bomb-count
cap and does admit two bombs in one cell. -/
theorem c4_client_one_bomb_per_cell (s : EngineState) (pid : Nat)
    (h : s.bombs.Pairwise (fun a b =>
      ¬(a.gridPosition.col = b.gridPosition.col ∧ a.gridPosition.row = b.gridPosition.row))) :
    (placeBomb s pid).1.bombs.Pairwise (fun a b =>
      ¬(a.gridPosition.col = b.gridPosition.col ∧ a.gridPosition.row = b.gridPosition.row)) := by
  unfold placeBomb
  cases hp : getPlayer s pid with
  | none => exact h
  | some p =>
    by_cases hcap : p.activeBombs ≥ p.maxBombs
    · simpa [hcap] using h
    · cases hb : bombAt s p.gridPosition with
      | some b => simpa [hcap, hb] using h
      | none =>
        simp only [hcap, hb, if_false, if_neg (Nat.not_le.mpr (Nat.not_le.mp hcap))]
        rw [List.pairwise_append]
        refine ⟨h, List.pairwise_singleton _ _, ?_⟩
        intro a ha b hb'
        rw [List.mem_singleton] at hb'
        subst hb'
        have := List.find?_eq_none.mp hb a ha
        simp only [Bool.and_eq_true, beq_iff_eq, not_and] at this
        intro hcontra
        exact absurd hcontra.2 (this (by simp [hcontra.1]))

/-- Witness for `c4_client_one_bomb_per_cell`, at a state with no bombs. -/
theorem c4_client_one_bomb_per_cell_witness :
    (placeBomb c3FreeState 1).1.bombs.Pairwise (fun a b =>
      ¬(a.gridPosition.col = b.gridPosition.col ∧ a.gridPosition.row = b.gridPosition.row)) :=
  c4_client_one_bomb_per_cell c3FreeState 1 List.Pairwise.nil

/-- C5: detonation is idempotent — running `explodeBomb` again on the state
and bomb produced by a first `explodeBomb` changes nothing, because the first
call set the bomb's `isDetonated` flag, so hazards are produced only once. -/
theorem c5_explode_bomb_idempotent (rand : Nat → ℚ) (s : EngineState) (b : Bomb) :
    explodeBomb rand (explodeBomb rand s b).1 (explodeBomb rand s b).2 =
      explodeBomb rand s b := by
  by_cases hb : b.isDetonated
  · simp [explodeBomb, hb]
  · simp [explodeBomb, hb]

theorem modifyAt_length {α : Type} (l : List α) (n : Nat) (f : α → α) :
    (modifyAt l n f).length = l.length := by
  induction l generalizing n with
  | nil => rfl
  | cons a as ih =>
    cases n with
    | zero => rfl
    | succ m => simp [modifyAt, ih]

theorem modifyAt_getElem? {α : Type} (l : List α) (n m : Nat) (f : α → α) :
    (modifyAt l n f)[m]? = if m = n then (l[m]?).map f else l[m]? := by
  induction l generalizing n m with
  | nil => simp [modifyAt]
  | cons a as ih =>
    cases n with
    | zero =>
      cases m with
      | zero => simp [modifyAt]
      | succ k => simp [modifyAt]
    | succ nn =>
      cases m with
      | zero => simp [modifyAt]
      | succ k => simpa [modifyAt, Nat.succ_inj] using ih nn k

theorem tileAtD_modifyTile_ne (g : List (List Tile)) (pos pos' : GridPos) (f : Tile → Tile)
    (h : pos'.row.toNat ≠ pos.row.toNat ∨ pos'.col.toNat ≠ pos.col.toNat) :
    tileAtD (modifyTile g pos f) pos' = tileAtD g pos' := by
  unfold tileAtD modifyTile
  rw [modifyAt_getElem?]
  by_cases hrow : pos'.row.toNat = pos.row.toNat
  · have hcol : pos'.col.toNat ≠ pos.col.toNat := by tauto
    rw [if_pos hrow]
    cases hg : g[pos'.row.toNat]? with
    | none => simp
    | some row => simp [modifyAt_getElem?, hcol]
  · rw [if_neg hrow]

theorem tileAtD_modifyTile_self (g : List (List Tile)) (pos : GridPos) (f : Tile → Tile)
    (t : Tile) (ht : (g[pos.row.toNat]?.getD [])[pos.col.toNat]? = some t) :
    tileAtD (modifyTile g pos f) pos = f t := by
  unfold tileAtD modifyTile
  rw [modifyAt_getElem?, if_pos rfl]
  cases hg : g[pos.row.toNat]? with
  | none => rw [hg] at ht; simp at ht
  | some row =>
    rw [hg] at ht
    simp only [Option.getD_some] at ht
    simp [modifyAt_getElem?, ht]

theorem cell_exists_of_type_ne_empty (g : List (List Tile)) (pos : GridPos)
    (h : (tileAtD g pos).type ≠ TILE_EMPTY) :
    (g[pos.row.toNat]?.getD [])[pos.col.toNat]? = some (tileAtD g pos) := by
  unfold tileAtD at h ⊢
  cases hc : (g[pos.row.toNat]?.getD [])[pos.col.toNat]? with
  | none => rw [hc] at h; simp at h
  | some t => simp [hc]

theorem cell_modifyTile_self (g : List (List Tile)) (pos : GridPos) (f : Tile → Tile) :
    ((modifyTile g pos f)[pos.row.toNat]?.getD [])[pos.col.toNat]? =
      ((g[pos.row.toNat]?.getD [])[pos.col.toNat]?).map f := by
  unfold modifyTile
  rw [modifyAt_getElem?, if_pos rfl]
  cases hg : g[pos.row.toNat]? with
  | none => simp
  | some row => simp [modifyAt_getElem?]

theorem modifyTile_length (g : List (List Tile)) (pos : GridPos) (f : Tile → Tile) :
    (modifyTile g pos f).length = g.length :=
  modifyAt_length g pos.row.toNat _

theorem modifyTile_headD_length (g : List (List Tile)) (pos : GridPos) (f : Tile → Tile) :
    ((modifyTile g pos f).headD []).length = (g.headD []).length := by
  cases g with
  | nil => rfl
  | cons r rs =>
    unfold modifyTile
    cases hr : pos.row.toNat with
    | zero => simp [modifyAt, modifyAt_length]
    | succ n => simp [modifyAt]

theorem isValidPosition_modifyTile (g : List (List Tile)) (pos pos' : GridPos)
    (f : Tile → Tile) :
    isValidPosition (modifyTile g pos f) pos' ↔ isValidPosition g pos' := by
  unfold isValidPosition
  rw [modifyTile_length, modifyTile_headD_length]

theorem spawnPowerUp_grid (rand : Nat → ℚ) (s : EngineState) (pos : GridPos) :
    (spawnPowerUp rand s pos).grid = s.grid := rfl

theorem spawnPowerUp_explosions (rand : Nat → ℚ) (s : EngineState) (pos : GridPos) :
    (spawnPowerUp rand s pos).explosions = s.explosions := rfl

theorem destroyBlock_explosions (rand : Nat → ℚ) (s : EngineState) (pos : GridPos) :
    (destroyBlock rand s pos).explosions = s.explosions := by
  unfold destroyBlock
  by_cases h : (tileAtD s.grid pos).hasPowerUp <;> simp [h, spawnPowerUp]

theorem destroyBlock_bombs (rand : Nat → ℚ) (s : EngineState) (pos : GridPos) :
    (destroyBlock rand s pos).bombs = s.bombs := by
  unfold destroyBlock
  by_cases h : (tileAtD s.grid pos).hasPowerUp <;> simp [h, spawnPowerUp]

theorem destroyBlock_grid_ne (rand : Nat → ℚ) (s : EngineState) (pos pos' : GridPos)
    (h : pos'.row.toNat ≠ pos.row.toNat ∨ pos'.col.toNat ≠ pos.col.toNat) :
    tileAtD (destroyBlock rand s pos).grid pos' = tileAtD s.grid pos' := by
  unfold destroyBlock
  by_cases hp : (tileAtD s.grid pos).hasPowerUp <;>
    simp [hp, spawnPowerUp, tileAtD_modifyTile_ne _ _ _ _ h]

theorem destroyBlock_type_self (rand : Nat → ℚ) (s : EngineState) (pos : GridPos)
    (hb : (tileAtD s.grid pos).type = TILE_BLOCK) :
    (tileAtD (destroyBlock rand s pos).grid pos).type = TILE_EMPTY := by
  have hcell := cell_exists_of_type_ne_empty s.grid pos (by rw [hb]; decide)
  have h1 : tileAtD (modifyTile s.grid pos (fun t =>
      { t with type := TILE_EMPTY, destructible := false })) pos =
      { tileAtD s.grid pos with type := TILE_EMPTY, destructible := false } :=
    tileAtD_modifyTile_self _ _ _ _ hcell
  have hcell1 : ((modifyTile s.grid pos (fun t =>
      { t with type := TILE_EMPTY, destructible := false }))[pos.row.toNat]?.getD
        [])[pos.col.toNat]? =
      some { tileAtD s.grid pos with type := TILE_EMPTY, destructible := false } := by
    rw [cell_modifyTile_self, hcell, Option.map_some']
  unfold destroyBlock
  by_cases hp : (tileAtD s.grid pos).hasPowerUp
  · simp only [hp, if_true]
    rw [show (spawnPowerUp rand { s with grid := modifyTile s.grid pos (fun t =>
        { t with type := TILE_EMPTY, destructible := false }) } pos).grid =
        modifyTile s.grid pos (fun t =>
          { t with type := TILE_EMPTY, destructible := false }) from rfl]
    rw [tileAtD_modifyTile_self _ _ _ _ hcell1]
  · simpa [hp] using congrArg Tile.type h1

theorem destroyBlock_grid_length (rand : Nat → ℚ) (s : EngineState) (pos : GridPos) :
    (destroyBlock rand s pos).grid.length = s.grid.length := by
  unfold destroyBlock
  by_cases hp : (tileAtD s.grid pos).hasPowerUp <;>
    simp [hp, spawnPowerUp, modifyTile_length]

theorem modifyTile_head_getD_length (g : List (List Tile)) (pos : GridPos) (f : Tile → Tile) :
    ((modifyTile g pos f).head?.getD []).length = (g.head?.getD []).length := by
  simpa [List.headD_eq_head?_getD] using modifyTile_headD_length g pos f

theorem destroyBlock_grid_headD_length (rand : Nat → ℚ) (s : EngineState) (pos : GridPos) :
    ((destroyBlock rand s pos).grid.headD []).length = (s.grid.headD []).length := by
  unfold destroyBlock
  by_cases hp : (tileAtD s.grid pos).hasPowerUp <;>
    simp [hp, spawnPowerUp, modifyTile_head_getD_length, List.headD_eq_head?_getD]

theorem isValidPosition_destroyBlock (rand : Nat → ℚ) (s : EngineState) (pos pos' : GridPos) :
    isValidPosition (destroyBlock rand s pos).grid pos' ↔ isValidPosition s.grid pos' := by
  unfold isValidPosition
  rw [destroyBlock_grid_length, destroyBlock_grid_headD_length]

theorem addExplosionTile_grid (s : EngineState) (pos : GridPos) (d : Dir5) (ie : Bool) :
    (addExplosionTile s pos d ie).grid = s.grid := rfl

theorem addExplosionTile_bombs (s : EngineState) (pos : GridPos) (d : Dir5) (ie : Bool) :
    (addExplosionTile s pos d ie).bombs = s.bombs := rfl

theorem addExplosionTile_explosions_eq (s : EngineState) (pos : GridPos) (d : Dir5) (ie : Bool) :
    ∃ e : Explosion, (addExplosionTile s pos d ie).explosions = s.explosions ++ [e] ∧
      e.gridPosition = pos :=
  ⟨_, rfl, rfl⟩

theorem chainCheck_eq (pos : GridPos) (s : EngineState) :
    ∃ pc, chainCheck pos s = { s with pendingChain := pc } := by
  unfold chainCheck
  cases h : s.bombs.find? (fun b =>
      b.gridPosition.col == pos.col && b.gridPosition.row == pos.row && !b.isDetonated) with
  | none => exact ⟨s.pendingChain, rfl⟩
  | some cb => exact ⟨_, rfl⟩

theorem chainCheck_grid (pos : GridPos) (s : EngineState) :
    (chainCheck pos s).grid = s.grid := by
  obtain ⟨pc, h⟩ := chainCheck_eq pos s
  rw [h]

theorem chainCheck_explosions (pos : GridPos) (s : EngineState) :
    (chainCheck pos s).explosions = s.explosions := by
  obtain ⟨pc, h⟩ := chainCheck_eq pos s
  rw [h]

theorem rayPos_injective (center : GridPos) (dx dy : Int) (hd : dx ≠ 0 ∨ dy ≠ 0)
    (i j : Nat) (hij : i ≠ j) : rayPos center dx dy i ≠ rayPos center dx dy j := by
  intro h
  unfold rayPos at h
  have h1 : dx * i = dx * j := by
    have := congrArg GridPos.col h
    simpa using this
  have h2 : dy * i = dy * j := by
    have := congrArg GridPos.row h
    simpa using this
  rcases hd with hd | hd
  · exact hij (by exact_mod_cast mul_left_cancel₀ hd h1)
  · exact hij (by exact_mod_cast mul_left_cancel₀ hd h2)

theorem gridPos_idx_ne (a b : GridPos) (ha1 : 0 ≤ a.row) (ha2 : 0 ≤ a.col)
    (hb1 : 0 ≤ b.row) (hb2 : 0 ≤ b.col) (hne : a ≠ b) :
    a.row.toNat ≠ b.row.toNat ∨ a.col.toNat ≠ b.col.toNat := by
  by_contra hcon
  push_neg at hcon
  obtain ⟨h1, h2⟩ := hcon
  apply hne
  obtain ⟨ac, ar⟩ := a
  obtain ⟨bc, br⟩ := b
  simp only at ha1 ha2 hb1 hb2 h1 h2
  have : ar = br := by omega
  have : ac = bc := by omega
  simp_all

theorem explodeDirGo_step_open (rand : Nat → ℚ) (center : GridPos) (dx dy : Int) (d : Dir5)
    (range : Nat) (pen : Bool) (i fuel : Nat) (s : EngineState)
    (hv : isValidPosition s.grid (rayPos center dx dy i))
    (hw : (tileAtD s.grid (rayPos center dx dy i)).type ≠ TILE_WALL)
    (hb : (tileAtD s.grid (rayPos center dx dy i)).type ≠ TILE_BLOCK) :
    ∃ s', explodeDirGo rand center dx dy d range pen i (fuel + 1) s =
        explodeDirGo rand center dx dy d range pen (i + 1) fuel s' ∧
      s'.grid = s.grid ∧ s'.bombs = s.bombs ∧
      ∃ e, s'.explosions = s.explosions ++ [e] ∧ e.gridPosition = rayPos center dx dy i := by
  obtain ⟨e, he, hege⟩ :=
    addExplosionTile_explosions_eq s (rayPos center dx dy i) d (decide (i = range))
  obtain ⟨pc, hcc⟩ := chainCheck_eq (rayPos center dx dy i)
    (addExplosionTile s (rayPos center dx dy i) d (decide (i = range)))
  refine ⟨chainCheck (rayPos center dx dy i)
      (addExplosionTile s (rayPos center dx dy i) d (decide (i = range))), ?_, ?_, ?_, e, ?_, hege⟩
  · show (if isValidPosition s.grid (rayPos center dx dy i) then _ else s) = _
    rw [if_pos hv, if_neg hw, if_neg hb]
  · rw [hcc]; rfl
  · rw [hcc]; rfl
  · rw [hcc]; exact he

theorem explodeDirGo_step_wall (rand : Nat → ℚ) (center : GridPos) (dx dy : Int) (d : Dir5)
    (range : Nat) (pen : Bool) (i fuel : Nat) (s : EngineState)
    (hv : isValidPosition s.grid (rayPos center dx dy i))
    (hw : (tileAtD s.grid (rayPos center dx dy i)).type = TILE_WALL) :
    explodeDirGo rand center dx dy d range pen i (fuel + 1) s = s := by
  show (if isValidPosition s.grid (rayPos center dx dy i) then _ else s) = s
  rw [if_pos hv, if_pos hw]

theorem explodeDirGo_step_block (rand : Nat → ℚ) (center : GridPos) (dx dy : Int) (d : Dir5)
    (range : Nat) (i fuel : Nat) (s : EngineState)
    (hv : isValidPosition s.grid (rayPos center dx dy i))
    (hb : (tileAtD s.grid (rayPos center dx dy i)).type = TILE_BLOCK) :
    explodeDirGo rand center dx dy d range false i (fuel + 1) s =
      destroyBlock rand (addExplosionTile s (rayPos center dx dy i) d (decide (i = range)))
        (rayPos center dx dy i) := by
  show (if isValidPosition s.grid (rayPos center dx dy i) then _ else s) = _
  rw [if_pos hv, if_neg (by rw [hb]; decide), if_pos hb]
  rfl

theorem explodeDirGo_step_block_pierce (rand : Nat → ℚ) (center : GridPos) (dx dy : Int)
    (d : Dir5) (range : Nat) (i fuel : Nat) (s : EngineState)
    (hv : isValidPosition s.grid (rayPos center dx dy i))
    (hb : (tileAtD s.grid (rayPos center dx dy i)).type = TILE_BLOCK) :
    explodeDirGo rand center dx dy d range true i (fuel + 1) s =
      explodeDirGo rand center dx dy d range true (i + 1) fuel
        (chainCheck (rayPos center dx dy i)
          (destroyBlock rand
            (addExplosionTile s (rayPos center dx dy i) d (decide (i = range)))
            (rayPos center dx dy i))) := by
  show (if isValidPosition s.grid (rayPos center dx dy i) then _ else s) = _
  rw [if_pos hv, if_neg (by rw [hb]; decide), if_pos hb]
  rfl

theorem explodeDirGo_open (rand : Nat → ℚ) (center : GridPos) (dx dy : Int) (d : Dir5)
    (range : Nat) (pen : Bool) (fuel : Nat) :
    ∀ (i : Nat) (s : EngineState),
    (∀ j, i ≤ j → j < i + fuel → openCell s.grid (rayPos center dx dy j)) →
    (explodeDirGo rand center dx dy d range pen i fuel s).explosions.length
        = s.explosions.length + fuel ∧
    (explodeDirGo rand center dx dy d range pen i fuel s).grid = s.grid ∧
    (explodeDirGo rand center dx dy d range pen i fuel s).bombs = s.bombs := by
  induction fuel with
  | zero => intro i s _; simp [explodeDirGo]
  | succ n ih =>
    intro i s h
    obtain ⟨hv, hw, hb⟩ := h i (le_refl i) (by omega)
    obtain ⟨s', hstep, hgrid1, hbombs1, e, hexp1, -⟩ :=
      explodeDirGo_step_open rand center dx dy d range pen i n s hv hw hb
    obtain ⟨l1, l2, l3⟩ := ih (i + 1) s' (fun j hj1 hj2 => by
      rw [hgrid1]; exact h j (by omega) (by omega))
    refine ⟨?_, ?_, ?_⟩
    · rw [hstep, l1, hexp1]
      simp [Nat.add_assoc, Nat.add_comm 1 n]
    · rw [hstep, l2, hgrid1]
    · rw [hstep, l3, hbombs1]

theorem explodeDirGo_wall (rand : Nat → ℚ) (center : GridPos) (dx dy : Int) (d : Dir5)
    (range : Nat) (pen : Bool) (hd : dx ≠ 0 ∨ dy ≠ 0) (fuel : Nat) :
    ∀ (i k : Nat) (s : EngineState), i ≤ k → k < i + fuel →
    (∀ j, i ≤ j → j < k → openCell s.grid (rayPos center dx dy j)) →
    isValidPosition s.grid (rayPos center dx dy k) →
    (tileAtD s.grid (rayPos center dx dy k)).type = TILE_WALL →
    (explodeDirGo rand center dx dy d range pen i fuel s).explosions.length
        = s.explosions.length + (k - i) ∧
    (explodeDirGo rand center dx dy d range pen i fuel s).grid = s.grid ∧
    ∀ e ∈ (explodeDirGo rand center dx dy d range pen i fuel s).explosions,
      e ∈ s.explosions ∨ e.gridPosition ≠ rayPos center dx dy k := by
  induction fuel with
  | zero => intro i k s h1 h2; omega
  | succ n ih =>
    intro i k s h1 h2 hopen hvk hwk
    by_cases hik : i = k
    · subst hik
      rw [explodeDirGo_step_wall rand center dx dy d range pen i n s hvk hwk]
      exact ⟨by omega, rfl, fun e he => Or.inl he⟩
    · have hik' : i < k := lt_of_le_of_ne h1 hik
      obtain ⟨hv, hw, hb⟩ := hopen i (le_refl i) hik'
      obtain ⟨s', hstep, hgrid1, hbombs1, e, hexp1, hege⟩ :=
        explodeDirGo_step_open rand center dx dy d range pen i n s hv hw hb
      obtain ⟨l1, l2, l3⟩ := ih (i + 1) k s' (by omega) (by omega)
        (fun j hj1 hj2 => by rw [hgrid1]; exact hopen j (by omega) hj2)
        (by rw [hgrid1]; exact hvk) (by rw [hgrid1]; exact hwk)
      refine ⟨?_, ?_, ?_⟩
      · rw [hstep, l1, hexp1]
        simp only [List.length_append, List.length_singleton]
        omega
      · rw [hstep, l2, hgrid1]
      · intro x hx
        rw [hstep] at hx
        rcases l3 x hx with hmem | hne
        · rw [hexp1] at hmem
          rcases List.mem_append.mp hmem with hmem | hmem
          · exact Or.inl hmem
          · right
            rw [List.mem_singleton.mp hmem, hege]
            exact rayPos_injective center dx dy hd i k hik
        · exact Or.inr hne

theorem explodeDirGo_block (rand : Nat → ℚ) (center : GridPos) (dx dy : Int) (d : Dir5)
    (range : Nat) (fuel : Nat) :
    ∀ (i k : Nat) (s : EngineState), i ≤ k → k < i + fuel →
    (∀ j, i ≤ j → j < k → openCell s.grid (rayPos center dx dy j)) →
    isValidPosition s.grid (rayPos center dx dy k) →
    (tileAtD s.grid (rayPos center dx dy k)).type = TILE_BLOCK →
    (explodeDirGo rand center dx dy d range false i fuel s).explosions.length
        = s.explosions.length + (k - i + 1) ∧
    (∃ e ∈ (explodeDirGo rand center dx dy d range false i fuel s).explosions,
      e.gridPosition = rayPos center dx dy k) ∧
    (tileAtD (explodeDirGo rand center dx dy d range false i fuel s).grid
        (rayPos center dx dy k)).type = TILE_EMPTY := by
  induction fuel with
  | zero => intro i k s h1 h2; omega
  | succ n ih =>
    intro i k s h1 h2 hopen hvk hbk
    by_cases hik : i = k
    · subst hik
      rw [explodeDirGo_step_block rand center dx dy d range i n s hvk hbk]
      obtain ⟨e, he, hege⟩ :=
        addExplosionTile_explosions_eq s (rayPos center dx dy i) d (decide (i = range))
      refine ⟨?_, ⟨e, ?_, hege⟩, ?_⟩
      · rw [destroyBlock_explosions, he]
        simp
      · rw [destroyBlock_explosions, he]
        simp
      · exact destroyBlock_type_self rand _ _ (by rw [addExplosionTile_grid]; exact hbk)
    · have hik' : i < k := lt_of_le_of_ne h1 hik
      obtain ⟨hv, hw, hb⟩ := hopen i (le_refl i) hik'
      obtain ⟨s', hstep, hgrid1, hbombs1, e, hexp1, hege⟩ :=
        explodeDirGo_step_open rand center dx dy d range false i n s hv hw hb
      obtain ⟨l1, l2, l3⟩ := ih (i + 1) k s' (by omega) (by omega)
        (fun j hj1 hj2 => by rw [hgrid1]; exact hopen j (by omega) hj2)
        (by rw [hgrid1]; exact hvk) (by rw [hgrid1]; exact hbk)
      refine ⟨?_, ?_, ?_⟩
      · rw [hstep, l1, hexp1]
        simp only [List.length_append, List.length_singleton]
        omega
      · obtain ⟨x, hx, hxg⟩ := l2
        exact ⟨x, by rw [hstep]; exact hx, hxg⟩
      · rw [hstep]
        exact l3

theorem explodeDirGo_pierce (rand : Nat → ℚ) (center : GridPos) (dx dy : Int) (d : Dir5)
    (range : Nat) (hd : dx ≠ 0 ∨ dy ≠ 0) (fuel : Nat) :
    ∀ (i : Nat) (s : EngineState),
    (∀ j, i ≤ j → j < i + fuel →
      isValidPosition s.grid (rayPos center dx dy j) ∧
      (tileAtD s.grid (rayPos center dx dy j)).type ≠ TILE_WALL) →
    (explodeDirGo rand center dx dy d range true i fuel s).explosions.length
        = s.explosions.length + fuel ∧
    (∀ j, i ≤ j → j < i + fuel →
      (tileAtD (explodeDirGo rand center dx dy d range true i fuel s).grid
        (rayPos center dx dy j)).type ≠ TILE_BLOCK) ∧
    (∀ pos' : GridPos,
      (∀ j, i ≤ j → j < i + fuel →
        (rayPos center dx dy j).row.toNat ≠ pos'.row.toNat ∨
        (rayPos center dx dy j).col.toNat ≠ pos'.col.toNat) →
      tileAtD (explodeDirGo rand center dx dy d range true i fuel s).grid pos'
        = tileAtD s.grid pos') ∧
    (explodeDirGo rand center dx dy d range true i fuel s).grid.length = s.grid.length ∧
    ((explodeDirGo rand center dx dy d range true i fuel s).grid.headD []).length
        = (s.grid.headD []).length := by
  induction fuel with
  | zero =>
    intro i s _
    refine ⟨by simp [explodeDirGo], fun j hj1 hj2 => by omega, fun pos' _ => by
      simp [explodeDirGo], by simp [explodeDirGo], by simp [explodeDirGo]⟩
  | succ n ih =>
    intro i s h
    obtain ⟨hv, hw⟩ := h i (le_refl i) (by omega)
    have hidxne : ∀ j, i < j → j < i + (n + 1) →
        (rayPos center dx dy j).row.toNat ≠ (rayPos center dx dy i).row.toNat ∨
        (rayPos center dx dy j).col.toNat ≠ (rayPos center dx dy i).col.toNat := by
      intro j hj1 hj2
      have hvj := (h j (by omega) hj2).1
      exact gridPos_idx_ne _ _ hvj.1 hvj.2.2.1 hv.1 hv.2.2.1
        (rayPos_injective center dx dy hd j i (by omega))
    by_cases hblock : (tileAtD s.grid (rayPos center dx dy i)).type = TILE_BLOCK
    · -- the cell holds a Block: a hazard is placed, the Block destroyed,
      -- and (penetrating) propagation continues
      have hstep := explodeDirGo_step_block_pierce rand center dx dy d range i n s hv hblock
      obtain ⟨e, he, hege⟩ :=
        addExplosionTile_explosions_eq s (rayPos center dx dy i) d (decide (i = range))
      set s2 := chainCheck (rayPos center dx dy i)
        (destroyBlock rand
          (addExplosionTile s (rayPos center dx dy i) d (decide (i = range)))
          (rayPos center dx dy i)) with hs2
      have hexp2 : s2.explosions = s.explosions ++ [e] := by
        rw [hs2, chainCheck_explosions, destroyBlock_explosions, he]
      have hgrid2 : s2.grid = (destroyBlock rand
          (addExplosionTile s (rayPos center dx dy i) d (decide (i = range)))
          (rayPos center dx dy i)).grid := by
        rw [hs2, chainCheck_grid]
      have htile2ne : ∀ pos' : GridPos,
          pos'.row.toNat ≠ (rayPos center dx dy i).row.toNat ∨
          pos'.col.toNat ≠ (rayPos center dx dy i).col.toNat →
          tileAtD s2.grid pos' = tileAtD s.grid pos' := by
        intro pos' hne
        rw [hgrid2, destroyBlock_grid_ne _ _ _ _ hne, addExplosionTile_grid]
      have htile2self : (tileAtD s2.grid (rayPos center dx dy i)).type = TILE_EMPTY := by
        rw [hgrid2]
        exact destroyBlock_type_self rand _ _ (by rw [addExplosionTile_grid]; exact hblock)
      have hlen2 : s2.grid.length = s.grid.length := by
        rw [hgrid2, destroyBlock_grid_length, addExplosionTile_grid]
      have hheadD2 : (s2.grid.headD []).length = (s.grid.headD []).length := by
        rw [hgrid2, destroyBlock_grid_headD_length, addExplosionTile_grid]
      have hvalid2 : ∀ q : GridPos, isValidPosition s2.grid q ↔ isValidPosition s.grid q := by
        intro q
        unfold isValidPosition
        rw [hlen2, hheadD2]
      obtain ⟨l1, l2, l3, l4, l5⟩ := ih (i + 1) s2 (fun j hj1 hj2 => by
        refine ⟨(hvalid2 _).mpr (h j (by omega) (by omega)).1, ?_⟩
        rw [htile2ne _ (hidxne j (by omega) (by omega))]
        exact (h j (by omega) (by omega)).2)
      refine ⟨?_, ?_, ?_, ?_, ?_⟩
      · rw [hstep, l1, hexp2]
        simp only [List.length_append, List.length_singleton]
        omega
      · intro j hj1 hj2
        rcases Nat.eq_or_lt_of_le hj1 with hj | hj
        · subst hj
          rw [hstep, l3 _ (fun j' hj1' hj2' => hidxne j' (by omega) (by omega)), htile2self]
          decide
        · rw [hstep]
          exact l2 j (by omega) (by omega)
      · intro pos' hpos'
        rw [hstep, l3 _ (fun j' hj1' hj2' => hpos' j' (by omega) (by omega)),
          htile2ne _ ((hpos' i (le_refl i) (by omega)).imp Ne.symm Ne.symm)]
      · rw [hstep, l4, hlen2]
      · rw [hstep, l5, hheadD2]
    · have hstep := explodeDirGo_step_open rand center dx dy d range true i n s hv hw hblock
      obtain ⟨s', hstepeq, hgrid1, hbombs1, e, hexp1, hege⟩ := hstep
      obtain ⟨l1, l2, l3, l4, l5⟩ := ih (i + 1) s' (fun j hj1 hj2 => by
        rw [hgrid1]; exact h j (by omega) (by omega))
      refine ⟨?_, ?_, ?_, ?_, ?_⟩
      · rw [hstepeq, l1, hexp1]
        simp only [List.length_append, List.length_singleton]
        omega
      · intro j hj1 hj2
        rcases Nat.eq_or_lt_of_le hj1 with hj | hj
        · subst hj
          rw [hstepeq, l3 _ (fun j' hj1' hj2' => hidxne j' (by omega) (by omega)), hgrid1]
          exact hblock
        · rw [hstepeq]
          exact l2 j (by omega) (by omega)
      · intro pos' hpos'
        rw [hstepeq, l3 _ (fun j' hj1' hj2' => hpos' j' (by omega) (by omega)), hgrid1]
      · rw [hstepeq, l4, hgrid1]
      · rw [hstepeq, l5, hgrid1]

/-- C1: explosion creation.  (1) In an open area — every cell within `range`
of the center in each cardinal direction inside the grid and neither Wall nor
Block — `createExplosion` produces exactly `1 + 4·range` hazard tiles.
(2) Propagation in a direction stops at the first Wall (at distance `k`),
producing exactly `k - 1` hazards and none on the Wall tile itself.
(3) A non-piercing blast stops at the first Block (at distance `k`), producing
exactly `k` hazards, the Block's tile included, and destroys that Block
(its tile becomes Empty).  (4) A piercing blast continues through Blocks for
its whole range, destroying every Block it passes. -/
theorem c1_explosion_propagation :
    (∀ (rand : Nat → ℚ) (s : EngineState) (center : GridPos) (range : Nat) (pen : Bool),
      (∀ p ∈ blastDirs, ∀ i, 1 ≤ i → i ≤ range →
        openCell s.grid (rayPos center p.1 p.2 i)) →
      (createExplosion rand s center range pen).explosions.length
        = s.explosions.length + (1 + 4 * range)) ∧
    (∀ (rand : Nat → ℚ) (center : GridPos) (dx dy : Int) (d : Dir5) (range : Nat)
        (pen : Bool) (s : EngineState) (k : Nat),
      (dx ≠ 0 ∨ dy ≠ 0) → 1 ≤ k → k ≤ range →
      (∀ j, 1 ≤ j → j < k → openCell s.grid (rayPos center dx dy j)) →
      isValidPosition s.grid (rayPos center dx dy k) →
      (tileAtD s.grid (rayPos center dx dy k)).type = TILE_WALL →
      (explodeDir rand center dx dy d range pen s).explosions.length
          = s.explosions.length + (k - 1) ∧
      ∀ e ∈ (explodeDir rand center dx dy d range pen s).explosions,
        e ∈ s.explosions ∨ e.gridPosition ≠ rayPos center dx dy k) ∧
    (∀ (rand : Nat → ℚ) (center : GridPos) (dx dy : Int) (d : Dir5) (range : Nat)
        (s : EngineState) (k : Nat),
      1 ≤ k → k ≤ range →
      (∀ j, 1 ≤ j → j < k → openCell s.grid (rayPos center dx dy j)) →
      isValidPosition s.grid (rayPos center dx dy k) →
      (tileAtD s.grid (rayPos center dx dy k)).type = TILE_BLOCK →
      (explodeDir rand center dx dy d range false s).explosions.length
          = s.explosions.length + k ∧
      (∃ e ∈ (explodeDir rand center dx dy d range false s).explosions,
        e.gridPosition = rayPos center dx dy k) ∧
      (tileAtD (explodeDir rand center dx dy d range false s).grid
          (rayPos center dx dy k)).type = TILE_EMPTY) ∧
    (∀ (rand : Nat → ℚ) (center : GridPos) (dx dy : Int) (d : Dir5) (range : Nat)
        (s : EngineState),
      (dx ≠ 0 ∨ dy ≠ 0) →
      (∀ j, 1 ≤ j → j ≤ range →
        isValidPosition s.grid (rayPos center dx dy j) ∧
        (tileAtD s.grid (rayPos center dx dy j)).type ≠ TILE_WALL) →
      (explodeDir rand center dx dy d range true s).explosions.length
          = s.explosions.length + range ∧
      ∀ j, 1 ≤ j → j ≤ range →
        (tileAtD (explodeDir rand center dx dy d range true s).grid
          (rayPos center dx dy j)).type ≠ TILE_BLOCK) := by
  refine ⟨?_, ?_, ?_, ?_⟩
  · intro rand s center range pen hopen
    have hup := hopen (0, -1) (by simp [blastDirs])
    have hdown := hopen (0, 1) (by simp [blastDirs])
    have hleft := hopen (-1, 0) (by simp [blastDirs])
    have hright := hopen (1, 0) (by simp [blastDirs])
    set s0 := addExplosionTile s center Dir5.center false with hs0
    have hg0 : s0.grid = s.grid := rfl
    have he0 : s0.explosions.length = s.explosions.length + 1 := by
      simp [hs0, addExplosionTile]
    obtain ⟨a1, a2, -⟩ := explodeDirGo_open rand center 0 (-1) Dir5.up range pen range 1 s0
      (fun j hj1 hj2 => by rw [hg0]; exact hup j hj1 (by omega))
    set s1 := explodeDir rand center 0 (-1) Dir5.up range pen s0 with hs1
    obtain ⟨b1, b2, -⟩ := explodeDirGo_open rand center 0 1 Dir5.down range pen range 1 s1
      (fun j hj1 hj2 => by
        show openCell s1.grid _
        rw [hs1]
        show openCell (explodeDirGo rand center 0 (-1) Dir5.up range pen 1 range s0).grid _
        rw [a2, hg0]
        exact hdown j hj1 (by omega))
    set s2 := explodeDir rand center 0 1 Dir5.down range pen s1 with hs2
    obtain ⟨c1, c2, -⟩ := explodeDirGo_open rand center (-1) 0 Dir5.left range pen range 1 s2
      (fun j hj1 hj2 => by
        show openCell s2.grid _
        rw [hs2]
        show openCell (explodeDirGo rand center 0 1 Dir5.down range pen 1 range s1).grid _
        rw [b2, hs1]
        show openCell (explodeDirGo rand center 0 (-1) Dir5.up range pen 1 range s0).grid _
        rw [a2, hg0]
        exact hleft j hj1 (by omega))
    set s3 := explodeDir rand center (-1) 0 Dir5.left range pen s2 with hs3
    obtain ⟨d1, d2, -⟩ := explodeDirGo_open rand center 1 0 Dir5.right range pen range 1 s3
      (fun j hj1 hj2 => by
        show openCell s3.grid _
        rw [hs3]
        show openCell (explodeDirGo rand center (-1) 0 Dir5.left range pen 1 range s2).grid _
        rw [c2, hs2]
        show openCell (explodeDirGo rand center 0 1 Dir5.down range pen 1 range s1).grid _
        rw [b2, hs1]
        show openCell (explodeDirGo rand center 0 (-1) Dir5.up range pen 1 range s0).grid _
        rw [a2, hg0]
        exact hright j hj1 (by omega))
    show (explodeDir rand center 1 0 Dir5.right range pen s3).explosions.length = _
    have hlen3 : s3.explosions.length = s.explosions.length + 1 + range + range + range := by
      rw [hs3]
      show (explodeDirGo rand center (-1) 0 Dir5.left range pen 1 range s2).explosions.length = _
      rw [c1, hs2]
      show (explodeDirGo rand center 0 1 Dir5.down range pen 1 range s1).explosions.length + range = _
      rw [b1, hs1]
      show (explodeDirGo rand center 0 (-1) Dir5.up range pen 1 range s0).explosions.length
          + range + range = _
      rw [a1, he0]
    show (explodeDirGo rand center 1 0 Dir5.right range pen 1 range s3).explosions.length = _
    rw [d1, hlen3]
    omega
  · intro rand center dx dy d range pen s k hd h1 h2 hopen hv hw
    obtain ⟨l1, l2, l3⟩ := explodeDirGo_wall rand center dx dy d range pen hd range 1 k s
      h1 (by omega) hopen hv hw
    exact ⟨l1, l3⟩
  · intro rand center dx dy d range s k h1 h2 hopen hv hb
    obtain ⟨l1, l2, l3⟩ := explodeDirGo_block rand center dx dy d range range 1 k s
      h1 (by omega) hopen hv hb
    refine ⟨?_, l2, l3⟩
    rw [show (explodeDir rand center dx dy d range false s) =
        explodeDirGo rand center dx dy d range false 1 range s from rfl, l1]
    omega
  · intro rand center dx dy d range s hd h
    obtain ⟨l1, l2, -, -, -⟩ := explodeDirGo_pierce rand center dx dy d range hd range 1 s
      (fun j hj1 hj2 => h j hj1 (by omega))
    exact ⟨l1, fun j hj1 hj2 => l2 j hj1 (by omega)⟩

/-- Witness for `c1_explosion_propagation`: a range-1 bomb at (7, 7) in the
open grid yields 5 hazards; the ray from (1, 1) going up stops at the border
Wall with 0 hazards; a range-2 ray to the right hitting a Block at (3, 1)
yields 2 hazards and empties that tile; the piercing variant also passes it. -/
theorem c1_explosion_propagation_witness :
    (createExplosion (fun _ => 0) c1OpenState ⟨7, 7⟩ 1 false).explosions.length = 5 ∧
    (explodeDir (fun _ => 0) ⟨1, 1⟩ 0 (-1) Dir5.up 2 false c1OpenState).explosions.length = 0 ∧
    (explodeDir (fun _ => 0) ⟨1, 1⟩ 1 0 Dir5.right 2 false c1BlockState).explosions.length = 2 ∧
    (tileAtD (explodeDir (fun _ => 0) ⟨1, 1⟩ 1 0 Dir5.right 2 false c1BlockState).grid
      (rayPos ⟨1, 1⟩ 1 0 2)).type = TILE_EMPTY ∧
    (explodeDir (fun _ => 0) ⟨1, 1⟩ 1 0 Dir5.right 2 true c1BlockState).explosions.length = 2 ∧
    (tileAtD (explodeDir (fun _ => 0) ⟨1, 1⟩ 1 0 Dir5.right 2 true c1BlockState).grid
      (rayPos ⟨1, 1⟩ 1 0 2)).type ≠ TILE_BLOCK := by
  obtain ⟨t1, t2, t3, t4⟩ := c1_explosion_propagation
  refine ⟨?_, ?_, ?_, ?_, ?_, ?_⟩
  · have h := t1 (fun _ => 0) c1OpenState ⟨7, 7⟩ 1 false (by
      intro p hp i h1 h2
      have : i = 1 := le_antisymm h2 h1
      subst this
      fin_cases hp <;> decide)
    simpa [c1OpenState, createInitialState] using h
  · have h := t2 (fun _ => 0) ⟨1, 1⟩ 0 (-1) Dir5.up 2 false c1OpenState 1
      (by decide) (by decide) (by decide)
      (by intro j h1 h2; exact absurd (Nat.lt_of_le_of_lt h1 h2) (Nat.lt_irrefl 1))
      (by decide) (by decide)
    simpa [c1OpenState, createInitialState] using h.1
  · have h := t3 (fun _ => 0) ⟨1, 1⟩ 1 0 Dir5.right 2 c1BlockState 2
      (by decide) (by decide)
      (by intro j h1 h2; interval_cases j; decide)
      (by decide) (by decide)
    simpa [c1BlockState, createInitialState] using h.1
  · have h := t3 (fun _ => 0) ⟨1, 1⟩ 1 0 Dir5.right 2 c1BlockState 2
      (by decide) (by decide)
      (by intro j h1 h2; interval_cases j; decide)
      (by decide) (by decide)
    exact h.2.2
  · have h := t4 (fun _ => 0) ⟨1, 1⟩ 1 0 Dir5.right 2 c1BlockState (by norm_num)
      (by intro j h1 h2; interval_cases j <;> exact ⟨by decide, by decide⟩)
    simpa [c1BlockState, createInitialState] using h.1
  · have h := t4 (fun _ => 0) ⟨1, 1⟩ 1 0 Dir5.right 2 c1BlockState (by norm_num)
      (by intro j h1 h2; interval_cases j <;> exact ⟨by decide, by decide⟩)
    exact h.2 2 (by decide) (by decide)

/-- C7: a player whose invincibility flag is active takes zero life loss from
any number of damage applications (`damagePlayer` is the single damage entry
point used by every collision branch of `checkCollisions`); a non-invincible
player damaged once loses exactly one life and becomes invincible with the
fixed 2000 ms timer. -/
theorem c7_invincibility (s : EngineState) (pid : Nat) (p : Player)
    (hp : getPlayer s pid = some p) :
    (p.isInvincible → ∀ n : Nat, (fun t => damagePlayer t pid)^[n] s = s) ∧
    (¬ p.isInvincible → ∃ q, getPlayer (damagePlayer s pid) pid = some q ∧
      q.lives = p.lives - 1 ∧ q.isInvincible = true ∧ q.invincibilityTimer = 2000) := by
  constructor
  · intro hinv n
    have hfix : damagePlayer s pid = s := by
      simp [damagePlayer, hp, hinv]
    simpa [hfix] using Function.iterate_fixed hfix n
  · intro hinv
    refine ⟨{ p with
        lives := p.lives - 1
        isInvincible := true
        invincibilityTimer := 2000
        isDead := if p.lives - 1 ≤ 0 then true else p.isDead }, ?_, rfl, rfl, rfl⟩
    have hplayers : (damagePlayer s pid).players = s.players.map (fun q =>
        if q.id == pid then
          { q with
            lives := p.lives - 1
            isInvincible := true
            invincibilityTimer := 2000
            isDead := if p.lives - 1 ≤ 0 then true else q.isDead }
        else q) := by
      simp only [damagePlayer, hp]
      rw [if_neg hinv]
      split_ifs <;> rfl
    unfold getPlayer
    rw [hplayers, find?_map_ite s.players (fun q => q.id == pid)
      (fun q => { q with
        lives := p.lives - 1
        isInvincible := true
        invincibilityTimer := 2000
        isDead := if p.lives - 1 ≤ 0 then true else q.isDead })
      (fun a => rfl)]
    rw [show s.players.find? (fun q => q.id == pid) = some p from hp, Option.map_some']

/-- Witness for `c7_invincibility`: three hits on an invincible player change
nothing; one hit on a fresh player takes it from 3 to 2 lives and grants the
2000 ms invincibility window. -/
theorem c7_invincibility_witness :
    ((fun t => damagePlayer t 1)^[3] c7InvState = c7InvState) ∧
    (∃ q, getPlayer (damagePlayer c3FreeState 1) 1 = some q ∧
      q.lives = 2 ∧ q.isInvincible = true ∧ q.invincibilityTimer = 2000) := by
  constructor
  · exact (c7_invincibility c7InvState 1 c7InvPlayer rfl).1 (by decide) 3
  · obtain ⟨q, h1, h2, h3, h4⟩ :=
      (c7_invincibility c3FreeState 1 c3FreePlayer rfl).2 (by decide)
    exact ⟨q, h1, by rw [h2]; decide, h3, h4⟩

theorem applyPowerUp_capped (p : Player) (t : PowerUpType) (h : statsCapped p) :
    statsCapped (applyPowerUp p t) := by
  obtain ⟨h1, h2, h3⟩ := h
  cases t with
  | speed => exact ⟨min_le_right _ _, h2, h3⟩
  | bombCount => exact ⟨h1, min_le_right _ _, h3⟩
  | fireRange => exact ⟨h1, h2, min_le_right _ _⟩
  | powerBomb => exact ⟨h1, h2, h3⟩
  | remoteBomb => exact ⟨h1, h2, h3⟩
  | lineBomb => exact ⟨h1, h2, h3⟩

/-- C10: along any sequence of `collectPowerUp` calls, `speed`, `maxBombs` and
`fireRange` never exceed their caps of 8; collecting a speed / bomb-count /
fire-range power-up at the cap leaves that stat unchanged; and the collected
power-up is always removed from the state (consumed). -/
theorem c10_powerup_caps :
    (∀ (s : EngineState) (pid : Nat) (pus : List PowerUp),
      (∀ p ∈ s.players, statsCapped p) →
      ∀ p ∈ (pus.foldl (fun t pu => collectPowerUp t pid pu) s).players, statsCapped p) ∧
    (∀ p : Player, p.speed = 8 → (applyPowerUp p PowerUpType.speed).speed = 8) ∧
    (∀ p : Player, p.maxBombs = 8 → (applyPowerUp p PowerUpType.bombCount).maxBombs = 8) ∧
    (∀ p : Player, p.fireRange = 8 → (applyPowerUp p PowerUpType.fireRange).fireRange = 8) ∧
    (∀ (s : EngineState) (pid : Nat) (pu : PowerUp),
      ∀ q ∈ (collectPowerUp s pid pu).powerUps, q.id ≠ pu.id) := by
  refine ⟨?_, ?_, ?_, ?_, ?_⟩
  · intro s pid pus
    induction pus generalizing s with
    | nil => exact fun h p hp => h p hp
    | cons pu rest ih =>
      intro h p hp
      refine ih (collectPowerUp s pid pu) (fun q hq => ?_) p hp
      simp only [collectPowerUp, List.mem_map] at hq
      obtain ⟨r, hr, hrq⟩ := hq
      by_cases hid : r.id == pid
      · rw [← hrq]
        simp only [hid, if_true]
        exact applyPowerUp_capped r pu.type (h r hr)
      · rw [← hrq]
        simp only [hid, Bool.false_eq_true, if_false]
        exact h r hr
  · intro p h
    simp [applyPowerUp, h]
  · intro p h
    simp [applyPowerUp, h]
  · intro p h
    simp [applyPowerUp, h]
  · intro s pid pu q hq
    simp only [collectPowerUp, List.mem_filter, bne_iff_ne, ne_eq] at hq
    exact hq.2

/-- Witness for `c10_powerup_caps`: after collecting a speed power-up from the
default stats, everything is within caps; a capped player keeps each stat at 8;
the collected power-up is consumed. -/
theorem c10_powerup_caps_witness :
    (∀ p ∈ (([c10PowerUp].foldl (fun t pu => collectPowerUp t 1 pu)
        c3FreeState)).players, statsCapped p) ∧
    (applyPowerUp c10MaxPlayer PowerUpType.speed).speed = 8 ∧
    (applyPowerUp c10MaxPlayer PowerUpType.bombCount).maxBombs = 8 ∧
    (applyPowerUp c10MaxPlayer PowerUpType.fireRange).fireRange = 8 ∧
    (∀ q ∈ (collectPowerUp c3FreeState 1 c10PowerUp).powerUps, q.id ≠ c10PowerUp.id) := by
  obtain ⟨t1, t2, t3, t4, t5⟩ := c10_powerup_caps
  refine ⟨?_, t2 c10MaxPlayer rfl, t3 c10MaxPlayer rfl, t4 c10MaxPlayer rfl,
    t5 c3FreeState 1 c10PowerUp⟩
  refine t1 c3FreeState 1 [c10PowerUp] ?_
  intro p hp
  rw [show c3FreeState.players = [c3FreePlayer] from rfl, List.mem_singleton] at hp
  subst hp
  refine ⟨?_, by decide, by decide⟩
  show (3 : ℚ) ≤ 8
  norm_num

theorem mkEnemy_id (id : Nat) (t : EnemyType) (pos : GridPos) :
    (mkEnemy id t pos).id = id := rfl

theorem creditKiller_enemies (s : EngineState) (enemy : Enemy) (killer : Option Nat) :
    (creditKiller s enemy killer).enemies = s.enemies ∧
    (creditKiller s enemy killer).grid = s.grid ∧
    (creditKiller s enemy killer).nextId = s.nextId := by
  cases killer <;> exact ⟨rfl, rfl, rfl⟩

theorem spawnSplit_spec (s : EngineState) (enemy : Enemy) (dxo : Int)
    (hfresh : ∀ e ∈ s.enemies, e.id < s.nextId) :
    ∃ minis : List Enemy,
      (spawnSplit s enemy dxo).enemies = s.enemies ++ minis ∧
      (spawnSplit s enemy dxo).grid = s.grid ∧
      s.nextId ≤ (spawnSplit s enemy dxo).nextId ∧
      (∀ e ∈ (spawnSplit s enemy dxo).enemies, e.id < (spawnSplit s enemy dxo).nextId) ∧
      minis.length = (if isValidPosition s.grid
            ⟨enemy.gridPosition.col + dxo, enemy.gridPosition.row⟩ ∧
          (tileAtD s.grid ⟨enemy.gridPosition.col + dxo, enemy.gridPosition.row⟩).type
            = TILE_EMPTY then 1 else 0) ∧
      (∀ m ∈ minis, m.type = EnemyType.slime ∧ m.speed = (12/10 : ℚ) * (3/2) ∧
        m.points = 50 ∧ s.nextId ≤ m.id) := by
  by_cases hcond : isValidPosition s.grid
      ⟨enemy.gridPosition.col + dxo, enemy.gridPosition.row⟩ ∧
      (tileAtD s.grid ⟨enemy.gridPosition.col + dxo, enemy.gridPosition.row⟩).type
        = TILE_EMPTY
  · have hne : ∀ e ∈ s.enemies, (e.id == s.nextId) = false :=
      fun e he => by simpa using Nat.ne_of_lt (hfresh e he)
    have hmapold : ∀ (l : List Enemy), (∀ e ∈ l, (e.id == s.nextId) = false) →
        l.map (fun e => if e.id == s.nextId
          then { e with speed := e.speed * (3/2), points := 50 } else e) = l := by
      intro l hl
      induction l with
      | nil => rfl
      | cons a as ih =>
        simp only [List.map_cons]
        rw [if_neg (by simp [hl a (List.mem_cons_self a as)]),
          ih (fun e he => hl e (List.mem_cons_of_mem a he))]
    have heq : spawnSplit s enemy dxo = { s with
        enemies := s.enemies ++
          [{ mkEnemy s.nextId EnemyType.slime
                ⟨enemy.gridPosition.col + dxo, enemy.gridPosition.row⟩ with
              speed := (mkEnemy s.nextId EnemyType.slime
                ⟨enemy.gridPosition.col + dxo, enemy.gridPosition.row⟩).speed * (3/2)
              points := 50 }]
        nextId := s.nextId + 1 } := by
      unfold spawnSplit
      rw [if_pos hcond]
      simp only [spawnEnemy, List.map_append, mkEnemy_id]
      rw [hmapold s.enemies hne]
      simp [mkEnemy_id]
    refine ⟨_, by rw [heq], by rw [heq], by rw [heq]; exact Nat.le_succ _, ?_, ?_, ?_⟩
    · intro e he
      rw [heq] at he ⊢
      rcases List.mem_append.mp he with h | h
      · exact Nat.lt_succ_of_lt (hfresh e h)
      · rw [List.mem_singleton.mp h]
        exact Nat.lt_succ_self _
    · rw [if_pos hcond]
      rfl
    · intro m hm
      rw [List.mem_singleton.mp hm]
      exact ⟨rfl, rfl, rfl, le_refl _⟩
  · refine ⟨[], ?_, ?_, ?_, ?_, ?_, ?_⟩
    · show (spawnSplit s enemy dxo).enemies = s.enemies ++ []
      unfold spawnSplit
      rw [if_neg hcond, List.append_nil]
    · unfold spawnSplit
      rw [if_neg hcond]
    · unfold spawnSplit
      rw [if_neg hcond]
    · unfold spawnSplit
      rw [if_neg hcond]
      exact hfresh
    · rw [if_neg hcond]
      rfl
    · intro m hm
      exact absurd hm (List.not_mem_nil m)

/-- C8 counterexample: a splitter at (col 2, row 1) in a grid whose left
neighbour (1, 1) is Empty — so it has an open adjacent cell — but whose right
neighbour (3, 1) is a Block: killing it spawns exactly one mini slime, not
two, because `killEnemy` only tries the left/right offsets and each
independently. -/
theorem c8_splitter_counterexample :
    (tileAtD c8BlockState.grid ⟨1, 1⟩).type = TILE_EMPTY ∧
    isValidPosition c8BlockState.grid ⟨1, 1⟩ ∧
    (killEnemy c8BlockState c8Splitter none).enemies.length = 1 := by
  refine ⟨by decide, by decide, ?_⟩
  rfl

/-- C8 (amended): killing a dead splitter spawns one mini slime for each of
its left and right neighbour cells that is a valid Empty tile — exactly two
only when both are Empty, and none via the up/down neighbours; each mini slime
is a wander-type slime with speed 1.2 × 1.5 = 1.8 (higher than the splitter
config's 1.5) and point value 50 (lower than the splitter's 250). -/
theorem c8_splitter_split (s : EngineState) (enemy : Enemy) (killer : Option Nat)
    (htype : enemy.type = EnemyType.splitter) (hh : enemy.health ≤ 0)
    (hfresh : ∀ e ∈ s.enemies, e.id < s.nextId) (hid : enemy.id < s.nextId) :
    ∃ minis : List Enemy,
      (killEnemy s enemy killer).enemies
        = s.enemies.filter (fun e => e.id != enemy.id) ++ minis ∧
      minis.length =
        (if isValidPosition s.grid ⟨enemy.gridPosition.col + (-1), enemy.gridPosition.row⟩ ∧
            (tileAtD s.grid ⟨enemy.gridPosition.col + (-1), enemy.gridPosition.row⟩).type
              = TILE_EMPTY then 1 else 0) +
        (if isValidPosition s.grid ⟨enemy.gridPosition.col + 1, enemy.gridPosition.row⟩ ∧
            (tileAtD s.grid ⟨enemy.gridPosition.col + 1, enemy.gridPosition.row⟩).type
              = TILE_EMPTY then 1 else 0) ∧
      (∀ m ∈ minis, m.type = EnemyType.slime ∧ m.speed = (12/10 : ℚ) * (3/2) ∧
        m.points = 50) ∧
      ((12/10 : ℚ) * (3/2) > (enemyConfig EnemyType.splitter).speed ∧
        (50 : Int) < (enemyConfig EnemyType.splitter).points) := by
  obtain ⟨hce, hcg, hcn⟩ := creditKiller_enemies s enemy killer
  have hke : killEnemy s enemy killer =
      { spawnSplit (spawnSplit { creditKiller s enemy killer with
            score := (creditKiller s enemy killer).score + enemy.points } enemy (-1))
          enemy 1 with
        enemies := (spawnSplit (spawnSplit { creditKiller s enemy killer with
            score := (creditKiller s enemy killer).score + enemy.points } enemy (-1))
          enemy 1).enemies.filter (fun e => e.id != enemy.id) } := by
    simp only [killEnemy]
    rw [if_pos ⟨htype, hh⟩]
  set s2 : EngineState :=
    { creditKiller s enemy killer with
      score := (creditKiller s enemy killer).score + enemy.points } with hs2
  have hs2e : s2.enemies = s.enemies := hce
  have hs2g : s2.grid = s.grid := hcg
  have hs2n : s2.nextId = s.nextId := hcn
  obtain ⟨minisL, hL1, hL2, hL3, hL4, hL5, hL6⟩ :=
    spawnSplit_spec s2 enemy (-1) (by rw [hs2e, hs2n]; exact hfresh)
  obtain ⟨minisR, hR1, hR2, hR3, hR4, hR5, hR6⟩ :=
    spawnSplit_spec (spawnSplit s2 enemy (-1)) enemy 1 hL4
  have henemies : (killEnemy s enemy killer).enemies
      = (s.enemies ++ (minisL ++ minisR)).filter (fun e => e.id != enemy.id) := by
    rw [hke]
    show (spawnSplit (spawnSplit s2 enemy (-1)) enemy 1).enemies.filter _ = _
    rw [hR1, hL1, hs2e, List.append_assoc]
  have hminis_pass : ∀ m ∈ minisL ++ minisR, (m.id != enemy.id) = true := by
    intro m hm
    have hsn : s.nextId ≤ m.id := by
      rcases List.mem_append.mp hm with h | h
      · rw [← hs2n]
        exact (hL6 m h).2.2.2
      · calc s.nextId = s2.nextId := hs2n.symm
          _ ≤ (spawnSplit s2 enemy (-1)).nextId := hL3
          _ ≤ m.id := (hR6 m h).2.2.2
    simpa using Nat.ne_of_gt (Nat.lt_of_lt_of_le hid hsn)
  refine ⟨minisL ++ minisR, ?_, ?_, ?_, ?_⟩
  · rw [henemies, List.filter_append, List.filter_eq_self.mpr hminis_pass]
  · rw [List.length_append, hL5, hR5, hL2, hs2g]
  · intro m hm
    rcases List.mem_append.mp hm with h | h
    · obtain ⟨a, b, c, -⟩ := hL6 m h
      exact ⟨a, b, c⟩
    · obtain ⟨a, b, c, -⟩ := hR6 m h
      exact ⟨a, b, c⟩
  · constructor
    · show (12/10 : ℚ) * (3/2) > 3/2
      norm_num
    · decide

/-- Witness for `c8_splitter_split`: with both horizontal neighbours Empty the
kill yields exactly two mini slimes. -/
theorem c8_splitter_split_witness :
    (killEnemy c8OpenState c8Splitter none).enemies.length = 2 := by
  obtain ⟨minis, h1, h2, h3, h4⟩ := c8_splitter_split c8OpenState c8Splitter none rfl
    (by decide)
    (by intro e he
        rw [show c8OpenState.enemies = [c8Splitter] from rfl, List.mem_singleton] at he
        subst he
        decide)
    (by decide)
  rw [h1, List.length_append, h2]
  rw [if_pos (by constructor <;> decide), if_pos (by constructor <;> decide)]
  rfl

/-- C2 counterexample: the engine's own `damageBoss` (used by
`checkCollisions` for boss-vs-explosion hits) decrements boss health from 10
to 9 even though the boss is not vulnerable, so it is not the case that
damage while not vulnerable never decrements health. -/
theorem c2_engine_damage_counterexample :
    c2Boss.isVulnerable = false ∧
    c2State.boss = some c2Boss ∧
    ((engineDamageBoss c2State).boss.map (fun b => b.health)) = some 9 :=
  ⟨rfl, rfl, rfl⟩

/-- C2 (amended): in the `BossSystem`, damage while not vulnerable is a no-op
(health never decremented), and health reaching ≤ 0 while vulnerable
transitions the state to dying and then — once the dying timer expires — to
defeated with exactly one defeat event (an inactive boss is never updated
again).  The `GameEngine`'s own `damageBoss`, by contrast, decrements health
unconditionally. -/
theorem c2_boss_lifecycle :
    (∀ (b : Boss) (dmg : Int), ¬ b.isVulnerable → damageBossS b dmg = b) ∧
    (∀ (b : Boss) (dmg : Int), b.isVulnerable → b.health - dmg ≤ 0 →
      (damageBossS b dmg).state = BossState.dying ∧
      (damageBossS b dmg).health = b.health - dmg ∧
      (damageBossS b dmg).isVulnerable = false) ∧
    (∀ (b : Boss) (dt : ℚ) (rnd : Nat), b.active → b.state = BossState.dying →
      b.attackTimer - dt ≤ 0 →
      ∃ b', bossUpdate b dt rnd = (b', 1) ∧
        b'.state = BossState.defeated ∧ b'.active = false) ∧
    (∀ (b : Boss) (dt : ℚ) (rnd : Nat), ¬ b.active → bossUpdate b dt rnd = (b, 0)) ∧
    (∀ (s : EngineState) (boss : Boss), s.boss = some boss →
      ((engineDamageBoss s).boss.map (fun b => b.health)) = some (boss.health - 1)) := by
  have hbU : ∀ (b : Boss) (dt : ℚ) (rnd : Nat), b.active = true → b.state = BossState.dying →
      b.attackTimer - dt ≤ 0 →
      bossUpdate b dt rnd =
        ({ b with
            animationFrame := jsMod (b.animationFrame + dt * (1/100)) 4
            attackTimer := b.attackTimer - dt
            state := BossState.defeated
            active := false }, 1) := by
    intro b dt rnd hactive hdying htimer
    obtain ⟨bid, bpos, bgpos, bbounds, bactive, bname, bhealth, bmaxHealth, bphase,
      bmaxPhases, bpattern, btimer, bcooldown, bvuln, bvulnTimer, bstate, banim,
      bdialogue, bdlg, bpoints⟩ := b
    simp only at hactive hdying htimer ⊢
    subst hdying
    subst hactive
    show (if ¬ true = true then _ else _) = _
    rw [if_neg (by simp)]
    show (if (btimer - dt : ℚ) ≤ 0 then _ else _) = _
    rw [if_pos htimer]
  refine ⟨?_, ?_, ?_, ?_, ?_⟩
  · intro b dmg hv
    unfold damageBossS
    rw [if_pos (by simpa using hv)]
  · intro b dmg hv hd
    have key : ∀ b2 : Boss, b2.health = b.health - dmg →
        ((if b2.health ≤ 0 then
            { b2 with state := BossState.dying, attackTimer := 3000, isVulnerable := false }
          else b2).state = BossState.dying ∧
         (if b2.health ≤ 0 then
            { b2 with state := BossState.dying, attackTimer := 3000, isVulnerable := false }
          else b2).health = b.health - dmg ∧
         (if b2.health ≤ 0 then
            { b2 with state := BossState.dying, attackTimer := 3000, isVulnerable := false }
          else b2).isVulnerable = false) := by
      intro b2 hb2
      rw [if_pos (hb2.trans_le hd)]
      exact ⟨rfl, hb2, rfl⟩
    show (damageBossS b dmg).state = _ ∧ (damageBossS b dmg).health = _ ∧
      (damageBossS b dmg).isVulnerable = _
    unfold damageBossS
    rw [if_neg (by simpa using hv)]
    exact key _ (by split <;> rfl)
  · intro b dt rnd hactive hdying htimer
    exact ⟨_, hbU b dt rnd hactive hdying htimer, rfl, rfl⟩
  · intro b dt rnd hactive
    unfold bossUpdate
    rw [if_pos (by simpa using hactive)]
  · intro s boss hb
    have hunfold : engineDamageBoss s =
        (if ({ boss with health := boss.health - 1 } : Boss).health ≤ 0 then
          { s with
            boss := some { boss with health := boss.health - 1, active := false }
            score := s.score + ({ boss with health := boss.health - 1 } : Boss).points }
        else { s with boss := some { boss with health := boss.health - 1 } }) := by
      unfold engineDamageBoss
      rw [hb]
    rw [hunfold]
    split
    · rfl
    · rfl

/-- Witness for `c2_boss_lifecycle`, applying each part at a concrete boss. -/
theorem c2_boss_lifecycle_witness :
    damageBossS c2Boss 1 = c2Boss ∧
    (damageBossS c2VulnBoss 1).state = BossState.dying ∧
    (∃ b', bossUpdate c2DyingBoss 100 0 = (b', 1) ∧
      b'.state = BossState.defeated ∧ b'.active = false) ∧
    bossUpdate c2DeadBoss 16 0 = (c2DeadBoss, 0) ∧
    ((engineDamageBoss c2State).boss.map (fun b => b.health)) = some 9 := by
  obtain ⟨t1, t2, t3, t4, t5⟩ := c2_boss_lifecycle
  refine ⟨t1 c2Boss 1 (by decide),
    (t2 c2VulnBoss 1 (by decide) (by decide)).1,
    t3 c2DyingBoss 100 0 (by decide) rfl (by show (100 : ℚ) - 100 ≤ 0; norm_num),
    t4 c2DeadBoss 16 0 (by decide), ?_⟩
  simpa [c2Boss] using t5 c2State c2Boss rfl

/-- C9: for a room in the waiting state, a start-game request succeeds exactly
when it comes from the host and every non-host player is ready; a host request
while some non-host player is not ready is rejected with the not-ready error
and leaves the room (in particular its game state) unchanged. -/
theorem c9_start_game (room : GameRoom) (callerId : Nat) (rnd : Nat → Nat → Bool) (now : ℚ)
    (hw : room.gameState = RoomState.waiting) :
    ((startGame room callerId rnd now).2 = StartOutcome.started ↔
      callerId = room.hostId ∧ ∀ p ∈ room.players, p.id ≠ room.hostId → p.isReady) ∧
    (callerId = room.hostId →
      (∃ p ∈ room.players, p.id ≠ room.hostId ∧ ¬ p.isReady) →
      (startGame room callerId rnd now).2 = StartOutcome.errNotReady ∧
      (startGame room callerId rnd now).1 = room) := by
  have hall : (room.players.all (fun p => p.isReady || p.id == room.hostId)) = true ↔
      ∀ p ∈ room.players, p.id ≠ room.hostId → p.isReady := by
    rw [List.all_eq_true]
    constructor
    · intro h p hp hne
      rcases Bool.or_eq_true_iff.mp (h p hp) with h' | h'
      · exact h'
      · exact absurd (by simpa using h') hne
    · intro h p hp
      by_cases hne : p.id = room.hostId
      · exact Bool.or_eq_true_iff.mpr (Or.inr (by simpa using hne))
      · exact Bool.or_eq_true_iff.mpr (Or.inl (h p hp hne))
  refine ⟨?_, ?_⟩
  · by_cases hhost : room.hostId ≠ callerId
    · rw [show startGame room callerId rnd now = (room, StartOutcome.errNotHost) from by
        unfold startGame; rw [if_pos hhost]]
      constructor
      · exact fun h => StartOutcome.noConfusion h
      · rintro ⟨h1, -⟩
        exact absurd h1.symm hhost
    · by_cases hready : (room.players.all (fun p => p.isReady || p.id == room.hostId)) = true
      · rw [show startGame room callerId rnd now = ({ room with
            gameState := RoomState.playing
            startTime := some now
            grid := generateGrid 15 13 rnd }, StartOutcome.started) from by
          unfold startGame
          rw [if_neg hhost, if_neg (not_not_intro hready)]]
        constructor
        · exact fun _ => ⟨(not_ne_iff.mp hhost).symm, hall.mp hready⟩
        · exact fun _ => rfl
      · rw [show startGame room callerId rnd now = (room, StartOutcome.errNotReady) from by
          unfold startGame
          rw [if_neg hhost, if_pos hready]]
        constructor
        · exact fun h => StartOutcome.noConfusion h
        · rintro ⟨-, h2⟩
          exact absurd (hall.mpr h2) hready
  · intro hhost hex
    have hready : ¬ (room.players.all (fun p => p.isReady || p.id == room.hostId)) = true := by
      rw [hall]
      intro hforall
      obtain ⟨p, hp, hne, hnr⟩ := hex
      exact hnr (hforall p hp hne)
    rw [show startGame room callerId rnd now = (room, StartOutcome.errNotReady) from by
      unfold startGame
      rw [if_neg (not_not_intro hhost.symm), if_pos hready]]
    exact ⟨rfl, rfl⟩

/-- Witness for `c9_start_game`: the host's request on the all-ready room
succeeds; on the room with a not-ready player it yields the not-ready error
and leaves the room unchanged. -/
theorem c9_start_game_witness :
    (startGame c9RoomReady 1 (fun _ _ => false) 0).2 = StartOutcome.started ∧
    (startGame c9RoomNotReady 1 (fun _ _ => false) 0).2 = StartOutcome.errNotReady ∧
    (startGame c9RoomNotReady 1 (fun _ _ => false) 0).1 = c9RoomNotReady := by
  have h1 := (c9_start_game c9RoomReady 1 (fun _ _ => false) 0 rfl).1
  have h2 := (c9_start_game c9RoomNotReady 1 (fun _ _ => false) 0 rfl).2 rfl
    ⟨c9P3, by
      rw [show c9RoomNotReady.players = [c9P1, c9P2, c9P3] from rfl]
      exact List.mem_cons_of_mem _ (List.mem_cons_of_mem _ (List.mem_cons_self _ _)),
      by decide, by decide⟩
  refine ⟨h1.mpr ⟨rfl, ?_⟩, h2.1, h2.2⟩
  intro p hp hne
  rw [show c9RoomReady.players = [c9P1, c9P2, { c9P3 with isReady := true }] from rfl] at hp
  simp only [List.mem_cons, List.mem_singleton, List.not_mem_nil, or_false] at hp
  rcases hp with rfl | rfl | rfl <;> decide

end SB6

